import Mathlib

/-!
Verification of the hand-written MongoDB log-line parser (`logline` package,
file `non_peg_log_line.go`-style source).  The Go parser works on a rune
slice terminated by a sentinel rune (1114112, one past the last valid
Unicode scalar value) and a mutable position plus a `Fields` map.

Shallow-embedding conventions, chosen to mirror the source:

* The rune slice is a `List Char`; the sentinel is represented by reading
  past the end of the list (`List.get?` returns `none`).  The Go slice has
  exactly one sentinel cell; Go reads past it are index-out-of-range
  panics, which can only happen on already-failing truncated inputs, and
  the model returns the sentinel for every out-of-bounds read.
* Go methods mutate `p.position`; they are embedded as functions from a
  cursor (input + position) to a result paired with the updated cursor.
  An error result also carries the cursor, because the source sometimes
  swallows an error and keeps parsing from the mutated position.
* Functions that touch `p.Fields` take the full parser state (cursor plus
  fields); functions that only read runes and move the position take the
  cursor alone, exactly like the Go methods that never mention `p.Fields`.
* `p.Fields` is a Go `map[string]interface{}` written to in program order;
  the spec's output record is an ordered mapping with insertion order and
  last-write-wins overwrite.  The model records the insertion sequence as
  an association list to which every write appends; `lookupF` returns the
  last write for a key, which is Go's overwrite semantics.
* Go `float64` values produced by `strconv.ParseFloat` are modelled as
  exact rationals: the parsed numeral is represented without rounding.
  All numerals the claims touch are small and exact in both models.
* `time.Unix(ms/1000, ms%1000*1000000)` built from an integral float `ms`
  denotes exactly `ms` milliseconds after the UNIX epoch (Go division and
  remainder satisfy `a = (a/b)*b + a%b`), so a datetime value is modelled
  by its signed millisecond count.
* Unicode character classes (`unicode.Space`, `unicode.IsDigit`,
  `unicode.IsLetter`, `unicode.IsUpper`, `unicode.IsNumber`): the space
  class is Go's full White_Space table; the letter/digit/upper classes are
  modelled on their ASCII fragment, which is the fragment exercised by the
  log-line grammar.
* The loops of the source (operation body, JSON map/array/value,
  plan summary, the embedded-JSON scan) are not structurally recursive, so
  they take an explicit fuel argument and return a distinguished
  `outOfFuel` error when it runs out; the entry point passes a fuel that
  is far larger than any reachable iteration count.
-/

namespace MLP

/-- Go `unicode.Is(unicode.Space, c)`: the Unicode White_Space table. -/
def isSpaceChar (c : Char) : Bool :=
  c.toNat = 9 || c.toNat = 10 || c.toNat = 11 || c.toNat = 12 || c.toNat = 13 ||
  c.toNat = 32 || c.toNat = 133 || c.toNat = 160 || c.toNat = 0x1680 ||
  (0x2000 ≤ c.toNat && c.toNat ≤ 0x200A) ||
  c.toNat = 0x2028 || c.toNat = 0x2029 || c.toNat = 0x202F ||
  c.toNat = 0x205F || c.toNat = 0x3000

/-- Go `unicode.IsDigit` (category Nd), ASCII fragment. -/
def isDigitChar (c : Char) : Bool :=
  48 ≤ c.toNat && c.toNat ≤ 57

/-- Go `unicode.IsNumber` (category N), ASCII fragment (same as Nd there). -/
def isNumberChar (c : Char) : Bool :=
  isDigitChar c

/-- Go `unicode.IsLetter` (category L), ASCII fragment. -/
def isLetterChar (c : Char) : Bool :=
  (65 ≤ c.toNat && c.toNat ≤ 90) || (97 ≤ c.toNat && c.toNat ≤ 122)

/-- Go `unicode.IsUpper`, ASCII fragment. -/
def isUpperChar (c : Char) : Bool :=
  65 ≤ c.toNat && c.toNat ≤ 90

/-- The hex-digit rune list of `parseJSONValue`'s ObjectId case. -/
def isHexChar (c : Char) : Bool :=
  isDigitChar c || (65 ≤ c.toNat && c.toNat ≤ 70) || (97 ≤ c.toNat && c.toNat ≤ 102)

/-- The rune class of `readNumber`: `{unicode.Digit, '.', '+', '-', 'e', 'E'}`. -/
def numberChar (c : Char) : Bool :=
  isDigitChar c || c = '.' || c = '+' || c = '-' || c = 'e' || c = 'E'

/-- The rune class of `readJSONIdentifier`:
`{unicode.Letter, unicode.Digit, '$', '_', '.', '*'}`. -/
def jsonIdentChar (c : Char) : Bool :=
  isLetterChar c || isDigitChar c || c = '$' || c = '_' || c = '.' || c = '*'

/-- Legal runes of `readUpcaseIdentifier`: underscore, digit, or uppercase letter. -/
def upcaseLegal (c : Char) : Bool :=
  c = '_' || isDigitChar c || (isLetterChar c && isUpperChar c)

/-- Legal runes of `readAlphaIdentifier`: letters only. -/
def alphaLegal (c : Char) : Bool :=
  isLetterChar c

/-- The error values the Go parser can produce (each constructor corresponds
to one `errors.New`/`fmt.Sprintf` site of the source), plus `outOfFuel`,
the artifact of the fuelled loops, and `panicPre30`, modelling the
`panic("< 3.0 support not implemented")` of `Parse`. -/
inductive Err where
  | panicPre30 : Err
  | invalidDayOfWeek : Err
  | invalidMonth : Err
  | unknownSeverity : Option Char → Err
  | expectedSpaceAfterSeverity : Err
  | illegalRune : Option Char → Err
  | endBeforeRange : Err
  | endBeforeRune : Char → Err
  | unexpectedEnd : Err
  | expected : Char → Option Char → Err
  | unexpectedValueStart : String → Err
  | malformedMap : Err
  | malformedList : Err
  | unexpectedEndJSON : Err
  | unknownConstructor : String → Err
  | dateNotInt : Err
  | unexpectedJSONValue : String → Err
  | unexpectedJSONStart : Option Char → Err
  | objectIdQuote : Err
  | invalidDuration : Err
  | parseFloatErr : String → Err
  | outOfFuel : Err
deriving Repr, DecidableEq

/-- The values a parsed field can hold (the `interface{}` payloads the Go
code actually stores): strings, rationals standing for `float64`, booleans,
`nil`, `time.Time` (as UNIX milliseconds), maps and slices. -/
inductive Value where
  | vNull : Value
  | vBool : Bool → Value
  | vNum : ℚ → Value
  | vStr : String → Value
  | vDate : ℤ → Value
  | vMap : List (String × Value) → Value
  | vList : List Value → Value
deriving Repr

/-- The scan cursor: the rune sequence (immutable) and the position. -/
structure Cur where
  input : List Char
  position : Nat
deriving Repr, DecidableEq

/-- Full parser state: cursor plus the output record, recorded as the
sequence of insertions. -/
structure PState where
  cur : Cur
  fields : List (String × Value)
deriving Repr

/-- `p.runes[p.position+k]`; `none` is the sentinel (or out of bounds). -/
def look (c : Cur) (k : Nat) : Option Char :=
  c.input.get? (c.position + k)

/-- Last-write-wins lookup: Go map reads after the recorded insertions. -/
def lookupF (k : String) : List (String × Value) → Option Value
  | [] => none
  | (k', v) :: rest => match lookupF k rest with
    | some r => some r
    | none => if k' = k then some v else none

/-- Result of a cursor-level Go method: an error or a value, and the
cursor as the method left it (Go mutates `p` in place). -/
abbrev CR (α : Type) := Except Err α × Cur

/-- Result of a field-level Go method. -/
abbrev PR (α : Type) := Except Err α × PState

/-- `p.eatWhitespace()`. -/
def eatWhitespace (c : Cur) : Cur :=
  { c with position := c.position + ((c.input.drop c.position).takeWhile isSpaceChar).length }

/-- `p.advance()`: return the current rune and move past it. -/
def advance (c : Cur) : Option Char × Cur :=
  (look c 0, { c with position := c.position + 1 })

/-- `p.expect(past)`. -/
def expect (past : Char) (c : Cur) : CR Unit :=
  let (r, c) := advance c
  if r = some past then (.ok (), c) else (.error (.expected past r), c)

/-- `p.readUntil(rt)`: consume while the current rune is not in the class;
error if the sentinel is reached first.  On success the position is on the
first rune of the class. -/
def readUntil (isStop : Char → Bool) (c : Cur) : CR String :=
  let suf := c.input.drop c.position
  let tk := suf.takeWhile (fun ch => !isStop ch)
  if tk.length = suf.length then (.error .endBeforeRange, c)
  else (.ok tk.asString, { c with position := c.position + tk.length })

/-- `p.readUntilRune(u)`; `u = none` encodes the Go call with the sentinel
rune itself (used by `parseMessage`), which never fails and consumes the
whole rest of the line. -/
def readUntilRune (u : Option Char) (c : Cur) : CR String :=
  let suf := c.input.drop c.position
  let tk := suf.takeWhile (fun ch => u ≠ some ch)
  if tk.length = suf.length && u.isSome then
    (.error (.endBeforeRune (u.getD ' ')), c)
  else (.ok tk.asString, { c with position := c.position + tk.length })

/-- `p.readWhile(checks)`: consume while the class matches; error if the
sentinel is reached. -/
def readWhile (checks : Char → Bool) (c : Cur) : CR String :=
  let suf := c.input.drop c.position
  let tk := suf.takeWhile checks
  if tk.length = suf.length then (.error .unexpectedEnd, c)
  else (.ok tk.asString, { c with position := c.position + tk.length })

/-- `p.readJSONIdentifier()`: never fails (the Go signature has an error
that no path produces). -/
def readJSONIdentifier (c : Cur) : String × Cur :=
  let tk := (c.input.drop c.position).takeWhile jsonIdentChar
  (tk.asString, { c with position := c.position + tk.length })

/-- `p.readUpcaseIdentifier()`: scan up to whitespace or the sentinel,
failing on the first rune that is not uppercase/digit/underscore; the
position is unchanged on failure. -/
def readUpcaseIdentifier (c : Cur) : CR String :=
  let tk := (c.input.drop c.position).takeWhile (fun ch => !isSpaceChar ch)
  match tk.find? (fun ch => !upcaseLegal ch) with
  | some bad => (.error (.illegalRune (some bad)), c)
  | none => (.ok tk.asString, { c with position := c.position + tk.length })

/-- `p.readAlphaIdentifier()`. -/
def readAlphaIdentifier (c : Cur) : CR String :=
  let tk := (c.input.drop c.position).takeWhile (fun ch => !isSpaceChar ch)
  match tk.find? (fun ch => !alphaLegal ch) with
  | some bad => (.error (.illegalRune (some bad)), c)
  | none => (.ok tk.asString, { c with position := c.position + tk.length })

/-- Decimal digits to a natural number. -/
def digitsToNat (ds : List Char) : Nat :=
  ds.foldl (fun a ch => a * 10 + (ch.toNat - 48)) 0

/-- Go `strconv.ParseFloat` restricted to the rune class of `readNumber`
(digits, `.`, `+`, `-`, `e`, `E`): optional sign, a mantissa that must
contain at least one digit, an optional fraction, an optional exponent
with at least one digit, and nothing left over.  The parsed numeral is
modelled exactly as a rational (see the header note on `float64`). -/
def parseDecimal (cs : List Char) : Option ℚ :=
  let sgn : ℤ := if cs.head? = some '-' then -1 else 1
  let cs1 := if cs.head? = some '-' || cs.head? = some '+' then cs.tail else cs
  let ip := cs1.takeWhile isDigitChar
  let r1 := cs1.dropWhile isDigitChar
  let fp := if r1.head? = some '.' then r1.tail.takeWhile isDigitChar else []
  let r2 := if r1.head? = some '.' then r1.tail.dropWhile isDigitChar else r1
  if ip.isEmpty && fp.isEmpty then none
  else
    -- the numeral value sgn * ip.fp * 10^exp as an exact rational,
    -- assembled with integer arithmetic and mkRat so that it computes
    let num : ℤ := sgn * ((digitsToNat ip : ℤ) * (10 : ℤ) ^ fp.length + (digitsToNat fp : ℤ))
    let den : ℕ := (10 : ℕ) ^ fp.length
    match r2.head? with
    | none => some (mkRat num den)
    | some e =>
      if e = 'e' || e = 'E' then
        let t := r2.tail
        let eneg : Bool := t.head? = some '-'
        let t1 := if t.head? = some '-' || t.head? = some '+' then t.tail else t
        let ed := t1.takeWhile isDigitChar
        let t2 := t1.dropWhile isDigitChar
        if ed.isEmpty || !t2.isEmpty then none
        else if eneg then some (mkRat num (den * (10 : ℕ) ^ digitsToNat ed))
        else some (mkRat (num * (10 : ℤ) ^ digitsToNat ed) den)
      else none

/-- `p.readNumber()`: scan the number rune class, fail if the scan reached
the sentinel, otherwise advance and convert with `ParseFloat`. -/
def readNumber (c : Cur) : CR ℚ :=
  let suf := c.input.drop c.position
  let tk := suf.takeWhile numberChar
  if tk.length = suf.length then (.error .endBeforeRange, c)
  else
    let c' := { c with position := c.position + tk.length }
    match parseDecimal tk with
    | some q => (.ok q, c')
    | none => (.error (.parseFloatErr tk.asString), c')

/-- `p.readDuration()`: digits immediately followed by the literal `ms`.
Go advances past the `ms` before the float conversion, so the conversion
failure (empty digit run) leaves the cursor advanced. -/
def readDuration (c : Cur) : CR ℚ :=
  let ds := (c.input.drop c.position).takeWhile isDigitChar
  let e := c.position + ds.length
  if c.input.get? e = some 'm' && c.input.get? (e + 1) = some 's' then
    let c' := { c with position := e + 2 }
    match parseDecimal ds with
    | some q => (.ok q, c')
    | none => (.error (.parseFloatErr ds.asString), c')
  else (.error .invalidDuration, c)

/-- `p.parseStringValue(quote)`: skip the opening quote, read to the next
occurrence of the quote, skip it.  No escape processing of any kind. -/
def parseStringValue (quote : Char) (c : Cur) : CR String :=
  let c := { c with position := c.position + 1 }
  match readUntilRune (some quote) c with
  | (.error e, c) => (.error e, c)
  | (.ok s, c) => (.ok s, { c with position := c.position + 1 })

/-- `p.matchAhead(startIdx, s)`: compare the pattern runes against the
input runes from `startIdx` on, failing on the first mismatch (reading
past the end compares against the sentinel and fails). -/
def matchAhead (input : List Char) (startIdx : Nat) (pat : List Char) : Bool :=
  match pat with
  | [] => true
  | r :: pat => input.get? startIdx = some r && matchAhead input (startIdx + 1) pat

/-- The scan loop of `parseJSONValue`'s mis-quoted-JSON special case
(everything after the `p.position++` that skips the opening quote):
advance `endPosition`, toggling `quoted` at every `"`, until the unquoted
terminator `", ` or the in-quote truncation marker `...", ` is found; the
returned index is on the `,`.  Reaching the sentinel is an error. -/
def scanEmbeddedJSON (fuel : Nat) (input : List Char) (quoted : Bool) (endPosition : Nat) :
    Except Err Nat :=
  match fuel with
  | 0 => .error .outOfFuel
  | fuel + 1 =>
    if !quoted && matchAhead input endPosition ['"', ',', ' '] then
      .ok (endPosition + 1)
    else if quoted && matchAhead input endPosition ['.', '.', '.', '"', ',', ' '] then
      .ok (endPosition + 4)
    else
      let quoted := if input.get? endPosition = some '"' then !quoted else quoted
      let endPosition := endPosition + 1
      if input.get? endPosition = none then .error .unexpectedEndJSON
      else scanEmbeddedJSON fuel input quoted endPosition

/-- `p.severityToString(sev)`. -/
def severityToString (sev : Option Char) : Except Err String :=
  match sev with
  | some 'D' => .ok "debug"
  | some 'I' => .ok "informational"
  | some 'W' => .ok "warning"
  | some 'E' => .ok "error"
  | some 'F' => .ok "fatal"
  | other => .error (.unknownSeverity other)

/-- `p.isOperationName(s)`. -/
def isOperationName (s : String) : Bool :=
  s = "query" || s = "getmore" || s = "insert" || s = "update" || s = "remove" || s = "command"

/-!
The document-value parser (`parseJSONMap` / `parseJSONArray` /
`parseJSONValue`): mutually recursive on the fuel.  The Go `for` loops are
split into explicitly named loop functions; `parseJSONMapAfterKey` and
`parseJSONMapSep` are the parts of the map-loop body after the key has
been read and after the value has been stored.  Every function of the
block checks and decrements the fuel on entry, so the recursion is
structural in the fuel; the behaviour for sufficiently large fuel is the
behaviour of the source loops.
-/

mutual

/-- `p.parseJSONMap()`: assumes the cursor is on the `{` and skips it. -/
def parseJSONMap (fuel : Nat) (c : Cur) : CR Value :=
  match fuel with
  | 0 => (.error .outOfFuel, c)
  | fuel + 1 =>
    parseJSONMapLoop fuel [] { c with position := c.position + 1 }

/-- One iteration of the `parseJSONMap` loop: read a key (quoted or bare). -/
def parseJSONMapLoop (fuel : Nat) (rv : List (String × Value)) (c : Cur) : CR Value :=
  match fuel with
  | 0 => (.error .outOfFuel, c)
  | fuel + 1 =>
    let c := eatWhitespace c
    match look c 0 with
    | some fc =>
      if fc = '"' || fc = '\'' then
        match parseStringValue fc c with
        | (.error e, c) => (.error e, c)
        | (.ok key, c) => parseJSONMapAfterKey fuel rv key c
      else
        let (key, c) := readJSONIdentifier c
        parseJSONMapAfterKey fuel rv key c
    | none =>
      let (key, c) := readJSONIdentifier c
      parseJSONMapAfterKey fuel rv key c

/-- The `if key != ""` body of the map loop: `: value` and insertion; an
empty key skips straight to the separator check. -/
def parseJSONMapAfterKey (fuel : Nat) (rv : List (String × Value)) (key : String) (c : Cur) :
    CR Value :=
  match fuel with
  | 0 => (.error .outOfFuel, c)
  | fuel + 1 =>
    if key ≠ "" then
      let c := eatWhitespace c
      match expect ':' c with
      | (.error e, c) => (.error e, c)
      | (.ok _, c) =>
        let c := eatWhitespace c
        match parseJSONValue fuel c with
        | (.error e, c) => (.error e, c)
        | (.ok v, c) => parseJSONMapSep fuel (rv ++ [(key, v)]) c
    else parseJSONMapSep fuel rv c

/-- The separator check ending each map-loop iteration: `}` closes, `,`
continues, anything else is an error. -/
def parseJSONMapSep (fuel : Nat) (rv : List (String × Value)) (c : Cur) : CR Value :=
  match fuel with
  | 0 => (.error .outOfFuel, c)
  | fuel + 1 =>
    let c := eatWhitespace c
    match look c 0 with
    | some '}' => (.ok (.vMap rv), { c with position := c.position + 1 })
    | some ',' => parseJSONMapLoop fuel rv { c with position := c.position + 1 }
    | _ => (.error .malformedMap, c)

/-- `p.parseJSONArray()`: assumes the cursor is on the `[`. -/
def parseJSONArray (fuel : Nat) (c : Cur) : CR Value :=
  match fuel with
  | 0 => (.error .outOfFuel, c)
  | fuel + 1 =>
    let c := eatWhitespace { c with position := c.position + 1 }
    if look c 0 = some ']' then (.ok (.vList []), { c with position := c.position + 1 })
    else parseJSONArrayLoop fuel [] c

/-- The `parseJSONArray` loop: value, then `]` or `,`. -/
def parseJSONArrayLoop (fuel : Nat) (rv : List Value) (c : Cur) : CR Value :=
  match fuel with
  | 0 => (.error .outOfFuel, c)
  | fuel + 1 =>
    match parseJSONValue fuel c with
    | (.error e, c) => (.error e, c)
    | (.ok v, c) =>
      let rv := rv ++ [v]
      let c := eatWhitespace c
      match look c 0 with
      | some ']' => (.ok (.vList rv), { c with position := c.position + 1 })
      | some ',' => parseJSONArrayLoop fuel rv (eatWhitespace { c with position := c.position + 1 })
      | _ => (.error .malformedList, c)

/-- `p.parseJSONValue()`: dispatch on the first rune, then (for letters) on
the identifier that was read. -/
def parseJSONValue (fuel : Nat) (c : Cur) : CR Value :=
  match fuel with
  | 0 => (.error .outOfFuel, c)
  | fuel + 1 =>
    match look c 0 with
    | none => (.error (.unexpectedJSONStart none), c)
    | some fc =>
      if fc = '{' then parseJSONMap fuel c
      else if fc = '[' then parseJSONArray fuel c
      else if isDigitChar fc || fc = '-' || fc = '+' || fc = '.' then
        match readNumber c with
        | (.error e, c) => (.error e, c)
        | (.ok q, c) => (.ok (.vNum q), c)
      else if fc = '"' then
        if look c 1 ≠ some '{' then
          match parseStringValue fc c with
          | (.error e, c) => (.error e, c)
          | (.ok s, c) => (.ok (.vStr s), c)
        else
          -- the mis-quoted truncated JSON blob special case
          let c := { c with position := c.position + 1 }
          match scanEmbeddedJSON fuel c.input false c.position with
          | .error e => (.error e, c)
          | .ok endPosition =>
            (.ok (.vStr ((c.input.drop c.position).take (endPosition - c.position)).asString),
             { c with position := endPosition })
      else if isLetterChar fc then
        let (id, c) := readJSONIdentifier c
        if id = "null" then (.ok .vNull, c)
        else if id = "true" then (.ok (.vBool true), c)
        else if id = "false" then (.ok (.vBool false), c)
        else if id = "new" then
          let c := eatWhitespace c
          let (ctor, c) := readJSONIdentifier c
          if ctor ≠ "Date" then (.error (.unknownConstructor ctor), c)
          else
            match expect '(' c with
            | (.error e, c) => (.error e, c)
            | (.ok _, c) =>
              match readNumber c with
              | (.error e, c) => (.error e, c)
              | (.ok dateNum, c) =>
                match expect ')' c with
                | (.error e, c) => (.error e, c)
                | (.ok _, c) =>
                  if dateNum.den ≠ 1 then (.error .dateNotInt, c)
                  else (.ok (.vDate dateNum.num), c)
        else if id = "Timestamp" then
          if look c 0 = some '(' then
            match readUntilRune (some ')') c with
            | (.error e, c) => (.error e, c)
            | (.ok ts, c) => (.ok (.vStr ts), c)
          else
            let c := eatWhitespace c
            match readWhile (fun ch => isDigitChar ch || ch = '|') c with
            | (.error e, c) => (.error e, c)
            | (.ok ts, c) => (.ok (.vStr ts), c)
        else if id = "ObjectId" then
          match expect '(' c with
          | (.error e, c) => (.error e, c)
          | (.ok _, c) =>
            match look c 0 with
            | some q =>
              if q = '\'' || q = '"' then
                let c := { c with position := c.position + 1 }
                match readWhile isHexChar c with
                | (.error e, c) => (.error e, c)
                | (.ok hex, c) =>
                  match expect q c with
                  | (.error e, c) => (.error e, c)
                  | (.ok _, c) =>
                    match expect ')' c with
                    | (.error e, c) => (.error e, c)
                    | (.ok _, c) => (.ok (.vStr hex), c)
              else (.error .objectIdQuote, c)
            | none => (.error .objectIdQuote, c)
        else (.error (.unexpectedJSONValue id), c)
      else (.error (.unexpectedJSONStart (some fc)), c)

end

/-- `p.parsePlanSummaryElement()`: probe an uppercase stage name (restoring
the position when the probe fails), then an optional parameter map; a
failure of the map parse is swallowed as `none` without restoring the
position, exactly as in the source. -/
def parsePlanSummaryElement (fuel : Nat) (c : Cur) : CR (Option Value) :=
  let c := eatWhitespace c
  let savedPosition := c.position
  match readUpcaseIdentifier c with
  | (.error _, c) => (.ok none, { c with position := savedPosition })
  | (.ok stage, c) =>
    let c := eatWhitespace c
    if look c 0 = some '{' then
      match parseJSONMap fuel c with
      | (.error _, c) => (.ok none, c)
      | (.ok m, c) => (.ok (some (.vMap [(stage, m)])), c)
    else (.ok (some (.vMap [(stage, .vBool true)])), c)

/-- The `parsePlanSummary` loop: elements separated by `,`. -/
def parsePlanSummaryLoop (fuel : Nat) (rv : List Value) (c : Cur) : CR Value :=
  match fuel with
  | 0 => (.error .outOfFuel, c)
  | fuel + 1 =>
    match parsePlanSummaryElement fuel c with
    | (.error e, c) => (.error e, c)
    | (.ok elem, c) =>
      let rv := match elem with
        | some v => rv ++ [v]
        | none => rv
      let c := eatWhitespace c
      if look c 0 = some ',' then
        parsePlanSummaryLoop fuel rv { c with position := c.position + 1 }
      else (.ok (.vList rv), c)

/-- `p.parsePlanSummary()`. -/
def parsePlanSummary (fuel : Nat) (c : Cur) : CR Value :=
  parsePlanSummaryLoop fuel [] (eatWhitespace c)

/-- Append one field insertion to the record (`p.Fields[k] = v`; the model
records the insertion sequence, `lookupF` gives the map view). -/
def setField (s : PState) (k : String) (v : Value) : PState :=
  { s with fields := s.fields ++ [(k, v)] }

/-- `p.parseFieldAndValue()`: probe `fieldname:`, backtracking with
`done = true` when there is no colon in the rest of the line; otherwise
dispatch on the field name / first value rune and store the value. -/
def parseFieldAndValue (fuel : Nat) (s : PState) : PR Bool :=
  let c := eatWhitespace s.cur
  let savedPosition := c.position
  match readUntilRune (some ':') c with
  | (.error _, c1) =>
    -- swallow the error to give our caller a chance to backtrack
    (.ok true, ⟨{ c1 with position := savedPosition }, s.fields⟩)
  | (.ok fieldName, c1) =>
    let c1 := { c1 with position := c1.position + 1 }
    let c1 := eatWhitespace c1
    if fieldName = "planSummary" then
      match parsePlanSummary fuel c1 with
      | (.error e, c2) => (.error e, ⟨c2, s.fields⟩)
      | (.ok v, c2) => (.ok false, ⟨c2, s.fields ++ [(fieldName, v)]⟩)
    else if fieldName = "command" then
      if look c1 0 ≠ some '{' then
        let (name, c2) := readJSONIdentifier c1
        let c2 := eatWhitespace c2
        let fields1 := s.fields ++ [("command_type", Value.vStr name)]
        match parseJSONMap fuel c2 with
        | (.error e, c3) => (.error e, ⟨c3, fields1⟩)
        | (.ok v, c3) => (.ok false, ⟨c3, fields1 ++ [(fieldName, v)]⟩)
      else
        match parseJSONMap fuel c1 with
        | (.error e, c2) => (.error e, ⟨c2, s.fields⟩)
        | (.ok v, c2) => (.ok false, ⟨c2, s.fields ++ [(fieldName, v)]⟩)
    else
      match look c1 0 with
      | some ch =>
        if ch = '{' then
          match parseJSONMap fuel c1 with
          | (.error e, c2) => (.error e, ⟨c2, s.fields⟩)
          | (.ok v, c2) => (.ok false, ⟨c2, s.fields ++ [(fieldName, v)]⟩)
        else if isDigitChar ch then
          match readNumber c1 with
          | (.error e, c2) => (.error e, ⟨c2, s.fields⟩)
          | (.ok q, c2) => (.ok false, ⟨c2, s.fields ++ [(fieldName, Value.vNum q)]⟩)
        else if ch = '"' then
          match parseStringValue ch c1 with
          | (.error e, c2) => (.error e, ⟨c2, s.fields⟩)
          | (.ok str, c2) => (.ok false, ⟨c2, s.fields ++ [(fieldName, Value.vStr str)]⟩)
        else (.error (.unexpectedValueStart fieldName), ⟨c1, s.fields⟩)
      | none => (.error (.unexpectedValueStart fieldName), ⟨c1, s.fields⟩)

/-- `p.parseOperationBody()`: the field-and-value loop; on `done`, consume
the trailing duration and stop; the loop also stops when the cursor is on
the sentinel. -/
def parseOperationBody (fuel : Nat) (s : PState) : PR Unit :=
  match fuel with
  | 0 => (.error .outOfFuel, s)
  | fuel + 1 =>
    if (look s.cur 0).isSome then
      match parseFieldAndValue fuel s with
      | (.error e, s) => (.error e, s)
      | (.ok done, s) =>
        if done then
          match readDuration s.cur with
          | (.error e, c) => (.error e, ⟨c, s.fields⟩)
          | (.ok dur, c) => (.ok (), setField ⟨c, s.fields⟩ "duration" (.vNum dur))
        else parseOperationBody fuel s
    else (.ok (), s)

/-- The free-text tail of `parseMessage`: everything up to the sentinel
becomes the `message` field (`readUntilRune(endRune)` never fails). -/
def messageFallback (s : PState) : PR Unit :=
  match readUntilRune none s.cur with
  | (.error e, c) => (.error e, ⟨c, s.fields⟩)
  | (.ok msg, c) => (.ok (), setField ⟨c, s.fields⟩ "message" (.vStr msg))

/-- `p.parseMessage()`: probe a whitespace-terminated token against the
operation names; on a hit store `operation`, read `namespace`, and enter
the operation body; on a miss (or when the probe read fails) restore the
saved position and store the whole tail as `message`. -/
def parseMessage (fuel : Nat) (s : PState) : PR Unit :=
  let c := eatWhitespace s.cur
  let savedPosition := c.position
  match readUntil isSpaceChar c with
  | (.ok operation, c1) =>
    if isOperationName operation then
      let c2 := eatWhitespace c1
      let s2 := setField ⟨c2, s.fields⟩ "operation" (.vStr operation)
      match readUntil isSpaceChar s2.cur with
      | (.error e, c3) => (.error e, ⟨c3, s2.fields⟩)
      | (.ok ns, c3) =>
        let s3 := setField ⟨c3, s2.fields⟩ "namespace" (.vStr ns)
        parseOperationBody fuel s3
    else messageFallback ⟨{ c1 with position := savedPosition }, s.fields⟩
  | (.error _, c1) => messageFallback ⟨{ c1 with position := savedPosition }, s.fields⟩

/-- `p.parseSeverity()`: one rune mapped through `severityToString`, then a
mandatory whitespace rune. -/
def parseSeverity (s : PState) : PR Unit :=
  let c := eatWhitespace s.cur
  let (sev, c) := advance c
  match severityToString sev with
  | .error e => (.error e, ⟨c, s.fields⟩)
  | .ok sevStr =>
    let s1 := setField ⟨c, s.fields⟩ "severity" (.vStr sevStr)
    let (sp, c2) := advance s1.cur
    match sp with
    | some spc =>
      if isSpaceChar spc then (.ok (), ⟨c2, s1.fields⟩)
      else (.error .expectedSpaceAfterSeverity, ⟨c2, s1.fields⟩)
    | none => (.error .expectedSpaceAfterSeverity, ⟨c2, s1.fields⟩)

/-- `p.parseComponent()`: `-` or an alphabetic identifier. -/
def parseComponent (s : PState) : PR Unit :=
  let c := eatWhitespace s.cur
  if look c 0 = some '-' then
    let c := { c with position := c.position + 1 }
    (.ok (), setField ⟨c, s.fields⟩ "component" (.vStr "-"))
  else
    match readAlphaIdentifier c with
    | (.error e, c) => (.error e, ⟨c, s.fields⟩)
    | (.ok comp, c) => (.ok (), setField ⟨c, s.fields⟩ "component" (.vStr comp))

/-- `p.parseContext()`: `[` … `]`. -/
def parseContext (s : PState) : PR Unit :=
  let c := eatWhitespace s.cur
  match expect '[' c with
  | (.error e, c) => (.error e, ⟨c, s.fields⟩)
  | (.ok _, c) =>
    match readUntilRune (some ']') c with
    | (.error e, c) => (.error e, ⟨c, s.fields⟩)
    | (.ok context, c) =>
      let c := { c with position := c.position + 1 }
      (.ok (), setField ⟨c, s.fields⟩ "context" (.vStr context))

/-- `validDayOfWeek(dayOfWeek, err)`: the Go helper ignores the incoming
error (a failed `readUntil` passes the empty string, whose length is not
3) and only checks that the token has exactly three runes. -/
def validDayOfWeek (r : CR String) : CR String :=
  match r with
  | (.error _, c) => (.error .invalidDayOfWeek, c)
  | (.ok d, c) => if d.length = 3 then (.ok d, c) else (.error .invalidDayOfWeek, c)

/-- `validMonth(month, err)`: same shape as `validDayOfWeek`. -/
def validMonth (r : CR String) : CR String :=
  match r with
  | (.error _, c) => (.error .invalidMonth, c)
  | (.ok m, c) => if m.length = 3 then (.ok m, c) else (.error .invalidMonth, c)

/-- `p.parseTimestamp()`: an ISO-8601 token when the first rune is a
number, otherwise four ctime tokens joined with single spaces. -/
def parseTimestamp (s : PState) : PR Unit :=
  let c := eatWhitespace s.cur
  -- `unicode.IsNumber(p.lookahead(0))`; the sentinel is in no category
  let firstIsNumber := match look c 0 with
    | some ch => isNumberChar ch
    | none => false
  if firstIsNumber then
    match readUntil isSpaceChar c with
    | (.error e, c) => (.error e, ⟨c, s.fields⟩)
    | (.ok ts, c) => (.ok (), setField ⟨c, s.fields⟩ "timestamp" (.vStr ts))
  else
    match validDayOfWeek (readUntil isSpaceChar c) with
    | (.error e, c) => (.error e, ⟨c, s.fields⟩)
    | (.ok dayOfWeek, c) =>
      match validMonth (readUntil isSpaceChar (eatWhitespace c)) with
      | (.error e, c) => (.error e, ⟨c, s.fields⟩)
      | (.ok month, c) =>
        match readUntil isSpaceChar (eatWhitespace c) with
        | (.error e, c) => (.error e, ⟨c, s.fields⟩)
        | (.ok day, c) =>
          match readUntil isSpaceChar (eatWhitespace c) with
          | (.error e, c) => (.error e, ⟨c, s.fields⟩)
          | (.ok time, c) =>
            (.ok (),
             setField ⟨c, s.fields⟩ "timestamp"
               (.vStr (dayOfWeek ++ " " ++ month ++ " " ++ day ++ " " ++ time)))

/-- `p.Parse()`: timestamp, the `[` version check (Go panics there; the
model returns the distinguished `panicPre30` error), then severity,
component, context and message. -/
def Parse (fuel : Nat) (s : PState) : PR Unit :=
  match parseTimestamp s with
  | (.error e, s) => (.error e, s)
  | (.ok _, s) =>
    if look s.cur 0 = some '[' then
      -- we assume version < 3.0
      (.error .panicPre30, s)
    else
      match parseSeverity s with
      | (.error e, s) => (.error e, s)
      | (.ok _, s) =>
        match parseComponent s with
        | (.error e, s) => (.error e, s)
        | (.ok _, s) =>
          match parseContext s with
          | (.error e, s) => (.error e, s)
          | (.ok _, s) => parseMessage fuel s

/-- The state `Init` builds from the input line. -/
def initState (input : String) : PState :=
  ⟨⟨input.data, 0⟩, []⟩

/-- Fuel passed by the entry point: generous, since every loop iteration
of the source consumes at least one rune (see the header note). -/
def parseFuel (input : String) : Nat :=
  16 * input.length + 64

/-- `ParseLogLine(input)`: run the parser on a fresh state and return the
field record or the first error. -/
def ParseLogLine (input : String) : Except Err (List (String × Value)) :=
  match Parse (parseFuel input) (initState input) with
  | (.error e, _) => .error e
  | (.ok _, s) => .ok s.fields

/-! ## Scanning helper lemmas -/

theorem takeWhile_append_of (p : Char → Bool) (l r : List Char)
    (hl : ∀ a ∈ l, p a = true) (hr : ∀ x, r.head? = some x → p x = false) :
    (l ++ r).takeWhile p = l := by
  induction l with
  | nil =>
    cases r with
    | nil => rfl
    | cons x t => simp [List.takeWhile_cons, hr x rfl]
  | cons a l ih =>
    simp only [List.cons_append, List.takeWhile_cons, hl a (by simp)]
    simp [ih fun x hx => hl x (by simp [hx])]

theorem takeWhile_all (p : Char → Bool) (l : List Char) (hl : ∀ a ∈ l, p a = true) :
    l.takeWhile p = l := by
  have := takeWhile_append_of p l [] hl (by intro x hx; simp at hx)
  simpa using this

theorem takeWhile_length_eq_iff (p : Char → Bool) (l : List Char) :
    (l.takeWhile p).length = l.length ↔ ∀ a ∈ l, p a = true := by
  constructor
  · intro h
    have hpre : l.takeWhile p = l :=
      List.Sublist.eq_of_length (List.takeWhile_sublist p) h
    intro a ha
    exact List.mem_takeWhile_imp (hpre ▸ ha)
  · intro h
    rw [takeWhile_all p l h]

theorem drop_add (c : Cur) (l r : List Char) (h : c.input.drop c.position = l ++ r) :
    c.input.drop (c.position + l.length) = r := by
  have h2 := congrArg (List.drop l.length) h
  rw [List.drop_left, List.drop_drop] at h2
  exact h2

theorem look_eq_get (c : Cur) (k : Nat) :
    look c k = (c.input.drop c.position).get? k := by
  simp [look, List.get?_eq_getElem?, List.getElem?_drop]

theorem eatWhitespace_eq (c : Cur) (l r : List Char)
    (h : c.input.drop c.position = l ++ r)
    (hl : ∀ a ∈ l, isSpaceChar a = true)
    (hr : ∀ x, r.head? = some x → isSpaceChar x = false) :
    eatWhitespace c = ⟨c.input, c.position + l.length⟩ := by
  simp only [eatWhitespace, h, takeWhile_append_of _ _ _ hl hr]

theorem readJSONIdentifier_eq (c : Cur) (l r : List Char)
    (h : c.input.drop c.position = l ++ r)
    (hl : ∀ a ∈ l, jsonIdentChar a = true)
    (hr : ∀ x, r.head? = some x → jsonIdentChar x = false) :
    readJSONIdentifier c = (l.asString, ⟨c.input, c.position + l.length⟩) := by
  simp only [readJSONIdentifier, h, takeWhile_append_of _ _ _ hl hr]

theorem readUntil_eq (isStop : Char → Bool) (c : Cur) (l : List Char) (x : Char) (r : List Char)
    (h : c.input.drop c.position = l ++ x :: r)
    (hl : ∀ a ∈ l, isStop a = false)
    (hx : isStop x = true) :
    readUntil isStop c = (.ok l.asString, ⟨c.input, c.position + l.length⟩) := by
  have ht : (l ++ x :: r).takeWhile (fun ch => !isStop ch) = l :=
    takeWhile_append_of _ _ _ (by intro a ha; simp [hl a ha])
      (by intro y hy; simp only [List.head?_cons, Option.some.injEq] at hy; subst hy; simp [hx])
  have hlen : ¬ (l.length = (l ++ x :: r).length) := by simp
  simp only [readUntil, h, ht, hlen, if_false]

theorem readUntil_err (isStop : Char → Bool) (c : Cur)
    (h : ∀ a ∈ c.input.drop c.position, isStop a = false) :
    readUntil isStop c = (.error .endBeforeRange, c) := by
  have ht := takeWhile_all (fun ch => !isStop ch) (c.input.drop c.position)
    (by intro a ha; simp [h a ha])
  simp only [readUntil, ht]
  simp

theorem readUntilRune_eq (u : Char) (c : Cur) (l : List Char) (r : List Char)
    (h : c.input.drop c.position = l ++ u :: r)
    (hl : ∀ a ∈ l, a ≠ u) :
    readUntilRune (some u) c = (.ok l.asString, ⟨c.input, c.position + l.length⟩) := by
  have ht : (l ++ u :: r).takeWhile (fun ch => some u ≠ some ch) = l :=
    takeWhile_append_of _ _ _
      (by intro a ha; simpa using fun hc => hl a ha hc.symm)
      (by intro y hy; simp only [List.head?_cons, Option.some.injEq] at hy; subst hy; simp)
  have hlen : ¬ (l.length = (l ++ u :: r).length) := by simp
  simp only [readUntilRune, h, ht]
  simp [hlen]

theorem readUntilRune_err (u : Char) (c : Cur)
    (h : ∀ a ∈ c.input.drop c.position, a ≠ u) :
    readUntilRune (some u) c = (.error (.endBeforeRune u), c) := by
  have ht := takeWhile_all (fun ch => some u ≠ some ch) (c.input.drop c.position)
    (by intro a ha; simpa using fun hc => h a ha hc.symm)
  simp only [readUntilRune, ht]
  simp

theorem readWhile_eq (checks : Char → Bool) (c : Cur) (l : List Char) (x : Char) (r : List Char)
    (h : c.input.drop c.position = l ++ x :: r)
    (hl : ∀ a ∈ l, checks a = true)
    (hx : checks x = false) :
    readWhile checks c = (.ok l.asString, ⟨c.input, c.position + l.length⟩) := by
  have ht : (l ++ x :: r).takeWhile checks = l :=
    takeWhile_append_of _ _ _ hl
      (by intro y hy; simp only [List.head?_cons, Option.some.injEq] at hy; subst hy; exact hx)
  have hlen : ¬ (l.length = (l ++ x :: r).length) := by simp
  simp only [readWhile, h, ht, hlen, if_false]

theorem readNumber_eq (c : Cur) (l : List Char) (x : Char) (r : List Char) (q : ℚ)
    (h : c.input.drop c.position = l ++ x :: r)
    (hl : ∀ a ∈ l, numberChar a = true)
    (hx : numberChar x = false)
    (hq : parseDecimal l = some q) :
    readNumber c = (.ok q, ⟨c.input, c.position + l.length⟩) := by
  have ht : (l ++ x :: r).takeWhile numberChar = l :=
    takeWhile_append_of _ _ _ hl
      (by intro y hy; simp only [List.head?_cons, Option.some.injEq] at hy; subst hy; exact hx)
  have hlen : ¬ (l.length = (l ++ x :: r).length) := by simp
  simp only [readNumber, h, ht, hlen, if_false, hq]

theorem expect_eq (x : Char) (c : Cur) (r : List Char)
    (h : c.input.drop c.position = x :: r) :
    expect x c = (.ok (), ⟨c.input, c.position + 1⟩) := by
  have hl : look c 0 = some x := by rw [look_eq_get, h]; rfl
  simp only [expect, advance, hl]
  simp

theorem digit_not_sign (d : Char) (hd : isDigitChar d = true) : d ≠ '-' ∧ d ≠ '+' := by
  simp [isDigitChar] at hd
  constructor <;> intro h <;> subst h <;> simp_all

/-- Pure digit runs parse as the exact natural number, an integral rational. -/
theorem parseDecimal_digits (ds : List Char) (hne : ds ≠ [])
    (hd : ∀ a ∈ ds, isDigitChar a = true) :
    parseDecimal ds = some ((digitsToNat ds : ℤ) : ℚ) ∧
    (((digitsToNat ds : ℤ) : ℚ)).den = 1 ∧ (((digitsToNat ds : ℤ) : ℚ)).num = (digitsToNat ds : ℤ) := by
  refine ⟨?_, by simp, by simp⟩
  obtain ⟨d, t, rfl⟩ : ∃ d t, ds = d :: t := by
    cases ds with
    | nil => exact absurd rfl hne
    | cons d t => exact ⟨d, t, rfl⟩
  obtain ⟨hm, hp⟩ := digit_not_sign d (hd d (by simp))
  have h1 : List.takeWhile isDigitChar (d :: t) = d :: t := takeWhile_all _ _ hd
  have h2 : List.dropWhile isDigitChar (d :: t) = [] :=
    List.dropWhile_eq_nil_iff.mpr (by intro a ha; simp [hd a ha])
  unfold parseDecimal
  simp only [List.head?_cons, Option.some.injEq, hm, hp, decide_False, Bool.or_self,
    Bool.false_eq_true, if_false, h1, h2]
  simp [digitsToNat]

/-! ## Field-trace inversion lemmas: which keys each stage appends -/

theorem messageFallback_fields (s s' : PState) (u : Unit)
    (h : messageFallback s = (.ok u, s')) :
    ∃ v, s'.fields = s.fields ++ [("message", v)] := by
  simp only [messageFallback] at h
  repeat' split at h
  all_goals solve
    | simp at h
    | (simp only [Prod.mk.injEq] at h
       first
         | (obtain ⟨h1, h2⟩ := h
            subst h2
            exact ⟨_, rfl⟩)
         | (subst h
            exact ⟨_, rfl⟩))

theorem parseTimestamp_fields (s s' : PState) (u : Unit)
    (h : parseTimestamp s = (.ok u, s')) :
    ∃ v, s'.fields = s.fields ++ [("timestamp", v)] := by
  simp only [parseTimestamp] at h
  repeat' split at h
  all_goals solve
    | simp at h
    | (simp only [Prod.mk.injEq] at h
       first
         | (obtain ⟨h1, h2⟩ := h
            subst h2
            exact ⟨_, rfl⟩)
         | (subst h
            exact ⟨_, rfl⟩))

theorem parseSeverity_fields (s s' : PState) (u : Unit)
    (h : parseSeverity s = (.ok u, s')) :
    ∃ v, s'.fields = s.fields ++ [("severity", v)] := by
  simp only [parseSeverity] at h
  repeat' split at h
  all_goals solve
    | simp at h
    | (simp only [Prod.mk.injEq] at h
       first
         | (obtain ⟨h1, h2⟩ := h
            subst h2
            exact ⟨_, rfl⟩)
         | (subst h
            exact ⟨_, rfl⟩))

theorem parseComponent_fields (s s' : PState) (u : Unit)
    (h : parseComponent s = (.ok u, s')) :
    ∃ v, s'.fields = s.fields ++ [("component", v)] := by
  simp only [parseComponent] at h
  repeat' split at h
  all_goals solve
    | simp at h
    | (simp only [Prod.mk.injEq] at h
       first
         | (obtain ⟨h1, h2⟩ := h
            subst h2
            exact ⟨_, rfl⟩)
         | (subst h
            exact ⟨_, rfl⟩))

theorem parseContext_fields (s s' : PState) (u : Unit)
    (h : parseContext s = (.ok u, s')) :
    ∃ v, s'.fields = s.fields ++ [("context", v)] := by
  simp only [parseContext] at h
  repeat' split at h
  all_goals solve
    | simp at h
    | (simp only [Prod.mk.injEq] at h
       first
         | (obtain ⟨h1, h2⟩ := h
            subst h2
            exact ⟨_, rfl⟩)
         | (subst h
            exact ⟨_, rfl⟩))

theorem parseFieldAndValue_fields (fuel : Nat) (s : PState) (b : Bool) (s' : PState)
    (h : parseFieldAndValue fuel s = (.ok b, s')) :
    (b = true → s'.fields = s.fields) ∧ (b = false → ∃ d, s'.fields = s.fields ++ d) := by
  simp only [parseFieldAndValue] at h
  repeat' split at h
  all_goals solve
    | simp at h
    | (simp only [Prod.mk.injEq, Except.ok.injEq] at h
       obtain ⟨h1, h2⟩ := h
       subst h1
       subst h2
       first
         | exact ⟨fun _ => rfl, by simp⟩
         | exact ⟨by simp, fun _ => ⟨_, rfl⟩⟩
         | exact ⟨by simp, fun _ => ⟨_, List.append_assoc _ _ _⟩⟩)

/-- The operation-body loop either stores a trailing `duration` as its last
insertion or stops because the cursor reached the sentinel. -/
theorem parseOperationBody_fields (fuel : Nat) :
    ∀ s s' : PState, parseOperationBody fuel s = (.ok (), s') →
      ∃ d, s'.fields = s.fields ++ d ∧
        ((∃ d0 q, d = d0 ++ [("duration", Value.vNum q)]) ∨
          s'.cur.input.length ≤ s'.cur.position) := by
  induction fuel with
  | zero =>
    intro s s' h
    simp [parseOperationBody] at h
  | succ fuel ih =>
    intro s s' h
    simp only [parseOperationBody] at h
    split at h
    · -- loop body runs
      rcases hf : parseFieldAndValue fuel s with ⟨r, s1⟩
      rw [hf] at h
      cases r with
      | error e => simp at h
      | ok done =>
        dsimp only [] at h
        have hfv := parseFieldAndValue_fields fuel s done s1 hf
        cases done with
        | true =>
          rw [if_pos rfl] at h
          split at h
          · simp at h
          · rename_i dur c2 hdur
            have h2 : setField ⟨c2, s1.fields⟩ "duration" (.vNum dur) = s' := by
              simpa using h
            subst h2
            refine ⟨[("duration", Value.vNum dur)], ?_, Or.inl ⟨[], dur, by simp⟩⟩
            simp [setField, hfv.1 rfl]
        | false =>
          rw [if_neg (by simp)] at h
          obtain ⟨d1, hd1⟩ := hfv.2 rfl
          obtain ⟨d2, hd2, hcase⟩ := ih s1 s' h
          exact ⟨d1 ++ d2, by rw [hd2, hd1, List.append_assoc], by
            rcases hcase with ⟨d0, q, rfl⟩ | hend
            · exact Or.inl ⟨d1 ++ d0, q, by rw [List.append_assoc]⟩
            · exact Or.inr hend⟩
    · -- cursor on the sentinel: loop exits, no duration
      rename_i hnone
      have h2 : s = s' := by simpa using h
      subst h2
      refine ⟨[], by simp, Or.inr ?_⟩
      have h0 : look s.cur 0 = none := by
        cases hl : look s.cur 0 with
        | none => rfl
        | some ch => rw [hl] at hnone; simp at hnone
      simp only [look] at h0
      have := List.get?_eq_none.mp h0
      omega

/-- What `parseMessage` appends: a single `message` entry, or
`operation`, `namespace` and the operation-body insertions. -/
theorem parseMessage_fields (fuel : Nat) (s s' : PState)
    (h : parseMessage fuel s = (.ok (), s')) :
    (∃ v, s'.fields = s.fields ++ [("message", v)]) ∨
    (∃ v1 v2 d, s'.fields = s.fields ++ ("operation", v1) :: ("namespace", v2) :: d ∧
      ((∃ d0 q, d = d0 ++ [("duration", Value.vNum q)]) ∨
        s'.cur.input.length ≤ s'.cur.position)) := by
  simp only [parseMessage] at h
  split at h
  · rename_i tok c1 heq
    split at h
    · -- operation hit
      split at h
      · simp at h
      · rename_i ns c3 hns
        obtain ⟨d, hd, hcase⟩ := parseOperationBody_fields fuel _ _ h
        refine Or.inr ⟨.vStr tok, .vStr ns, d, ?_, hcase⟩
        rw [hd]
        simp [setField]
    · refine Or.inl ?_
      obtain ⟨v, hv⟩ := messageFallback_fields _ _ () h
      exact ⟨v, by simpa using hv⟩
  · refine Or.inl ?_
    obtain ⟨v, hv⟩ := messageFallback_fields _ _ () h
    exact ⟨v, by simpa using hv⟩

/-- The insertion trace of a successful `Parse`, assembled from the stage
lemmas: four fixed keys, then the message/operation tail. -/
theorem Parse_key_order (fuel : Nat) (input : String) (s' : PState)
    (h : Parse fuel (initState input) = (.ok (), s')) :
    ∃ rest, s'.fields.map Prod.fst =
        "timestamp" :: "severity" :: "component" :: "context" :: rest ∧
      (rest = ["message"] ∨
        ∃ ops, rest = "operation" :: "namespace" :: ops ∧
          ((∃ ops0, ops = ops0 ++ ["duration"]) ∨ s'.cur.input.length ≤ s'.cur.position)) := by
  simp only [Parse] at h
  split at h
  · simp at h
  rename_i u1 s1 heq1
  split at h
  · simp at h
  split at h
  · simp at h
  rename_i u2 s2 heq2
  split at h
  · simp at h
  rename_i u3 s3 heq3
  split at h
  · simp at h
  rename_i u4 s4 heq4
  obtain ⟨v1, f1⟩ := parseTimestamp_fields _ _ u1 heq1
  obtain ⟨v2, f2⟩ := parseSeverity_fields _ _ u2 heq2
  obtain ⟨v3, f3⟩ := parseComponent_fields _ _ u3 heq3
  obtain ⟨v4, f4⟩ := parseContext_fields _ _ u4 heq4
  have f0 : (initState input).fields = [] := rfl
  rcases parseMessage_fields fuel s4 s' h with ⟨v5, f5⟩ | ⟨v5, v6, d, f5, hcase⟩
  · refine ⟨["message"], ?_, Or.inl rfl⟩
    rw [f5, f4, f3, f2, f1, f0]
    simp
  · refine ⟨"operation" :: "namespace" :: d.map Prod.fst, ?_, Or.inr ⟨d.map Prod.fst, rfl, ?_⟩⟩
    · rw [f5, f4, f3, f2, f1, f0]
      simp
    · rcases hcase with ⟨d0, q, rfl⟩ | hend
      · exact Or.inl ⟨d0.map Prod.fst, by simp⟩
      · exact Or.inr hend

/-! ## Probe/backtracking lemmas -/

theorem eatWhitespace_input (c : Cur) : (eatWhitespace c).input = c.input := rfl

theorem readUntilRune_err_inv (u : Char) (e : Err) (c c1 : Cur)
    (h : readUntilRune (some u) c = (.error e, c1)) :
    (∀ a ∈ c.input.drop c.position, a ≠ u) ∧ c1 = c := by
  simp only [readUntilRune] at h
  split at h
  · rename_i hc
    simp only [Prod.mk.injEq] at h
    refine ⟨?_, h.2.symm⟩
    simp only [Bool.and_eq_true, decide_eq_true_eq, Option.isSome_some] at hc
    intro a ha hau
    have := (takeWhile_length_eq_iff _ _).mp hc.1 a ha
    simp [hau] at this
  · simp at h

theorem readUpcaseIdentifier_err_inv (e : Err) (c c1 : Cur)
    (h : readUpcaseIdentifier c = (.error e, c1)) : c1 = c := by
  simp only [readUpcaseIdentifier] at h
  split at h
  · simp only [Prod.mk.injEq] at h
    exact h.2.symm
  · simp at h

theorem readUntil_input (isStop : Char → Bool) (c : Cur) :
    (readUntil isStop c).2.input = c.input := by
  simp only [readUntil]
  split <;> rfl

/-- Failure of the operation-name probe (either the token read fails or the
token is not an operation name) sends `parseMessage` into the fallback with
the position restored to the save point and the fields untouched. -/
theorem parseMessage_probe_restore (fuel : Nat) (s : PState) :
    (∀ tok c1, readUntil isSpaceChar (eatWhitespace s.cur) = (.ok tok, c1) →
      isOperationName tok = false →
      parseMessage fuel s =
        messageFallback ⟨⟨s.cur.input, (eatWhitespace s.cur).position⟩, s.fields⟩) ∧
    (∀ e c1, readUntil isSpaceChar (eatWhitespace s.cur) = (.error e, c1) →
      parseMessage fuel s =
        messageFallback ⟨⟨s.cur.input, (eatWhitespace s.cur).position⟩, s.fields⟩) := by
  constructor
  · intro tok c1 hp hop
    have hin : c1.input = s.cur.input := by
      have := readUntil_input isSpaceChar (eatWhitespace s.cur)
      rw [hp] at this
      exact this
    simp only [parseMessage, hp, hop, Bool.false_eq_true, if_false]
    rw [hin]
  · intro e c1 hp
    have hin : c1.input = s.cur.input := by
      have := readUntil_input isSpaceChar (eatWhitespace s.cur)
      rw [hp] at this
      exact this
    simp only [parseMessage, hp]
    rw [hin]

/-- Failure of the field probe (no colon anywhere in the rest of the line)
returns `done = true` with the position restored and the fields untouched. -/
theorem parseFieldAndValue_probe_restore (fuel : Nat) (s : PState)
    (h : ∀ a ∈ s.cur.input.drop (eatWhitespace s.cur).position, a ≠ ':') :
    parseFieldAndValue fuel s =
      (.ok true, ⟨⟨s.cur.input, (eatWhitespace s.cur).position⟩, s.fields⟩) := by
  have herr := readUntilRune_err ':' (eatWhitespace s.cur) (by simpa using h)
  simp only [parseFieldAndValue, herr]
  rfl

/-- Failure of the plan-summary stage probe restores the saved position;
the function never touches the field record at all (it is cursor-level). -/
theorem parsePlanSummaryElement_probe_restore (fuel : Nat) (c : Cur)
    (e : Err) (c1 : Cur)
    (h : readUpcaseIdentifier (eatWhitespace c) = (.error e, c1)) :
    parsePlanSummaryElement fuel c = (.ok none, ⟨c.input, (eatWhitespace c).position⟩) := by
  have hc1 : c1 = eatWhitespace c := readUpcaseIdentifier_err_inv e _ c1 h
  simp only [parsePlanSummaryElement, h, hc1]
  rfl

/-- The no-more-fields report happens exactly when no colon remains. -/
theorem parseFieldAndValue_done_iff (fuel : Nat) (s : PState) :
    ((∃ s', parseFieldAndValue fuel s = (.ok true, s')) ↔
      ∀ a ∈ s.cur.input.drop (eatWhitespace s.cur).position, a ≠ ':') ∧
    (∀ s', parseFieldAndValue fuel s = (.ok true, s') →
      s' = ⟨⟨s.cur.input, (eatWhitespace s.cur).position⟩, s.fields⟩) := by
  constructor
  · constructor
    · rintro ⟨s', h⟩
      simp only [parseFieldAndValue] at h
      split at h
      · rename_i e c1 heq
        have := readUntilRune_err_inv ':' e _ c1 heq
        simpa using this.1
      · repeat' split at h
        all_goals simp at h
    · intro hnc
      exact ⟨_, parseFieldAndValue_probe_restore fuel s hnc⟩
  · intro s' h
    simp only [parseFieldAndValue] at h
    split at h
    · rename_i e c1 heq
      have hc1 := (readUntilRune_err_inv ':' e _ c1 heq).2
      simp only [Prod.mk.injEq, Except.ok.injEq] at h
      rw [← h.2, hc1]
      rfl
    · repeat' split at h
      all_goals simp at h

/-- A whitespace-free tail is never an operation: the probe read fails at
the sentinel, the whole tail becomes `message`, and no other key appears. -/
theorem parseMessage_single_token (fuel : Nat) (s : PState) (tok : List Char)
    (ht : s.cur.input.drop (eatWhitespace s.cur).position = tok)
    (hne : tok ≠ [])
    (hns : ∀ a ∈ tok, isSpaceChar a = false) :
    parseMessage fuel s =
      (.ok (), ⟨⟨s.cur.input, s.cur.input.length⟩,
        s.fields ++ [("message", Value.vStr tok.asString)]⟩) := by
  have herr : readUntil isSpaceChar (eatWhitespace s.cur) = (.error .endBeforeRange, eatWhitespace s.cur) := by
    apply readUntil_err
    intro a ha
    rw [eatWhitespace_input, ht] at ha
    exact hns a ha
  have hrestore := (parseMessage_probe_restore fuel s).2 _ _ herr
  rw [hrestore]
  have hpos : (eatWhitespace s.cur).position + tok.length = s.cur.input.length := by
    have hlen := congrArg List.length ht
    rw [List.length_drop] at hlen
    have : tok.length ≠ 0 := by
      intro h0
      exact hne (List.eq_nil_of_length_eq_zero h0)
    omega
  have hread : readUntilRune none (⟨s.cur.input, (eatWhitespace s.cur).position⟩ : Cur) =
      (.ok tok.asString, ⟨s.cur.input, s.cur.input.length⟩) := by
    simp only [readUntilRune]
    have hdrop : (⟨s.cur.input, (eatWhitespace s.cur).position⟩ : Cur).input.drop
        (⟨s.cur.input, (eatWhitespace s.cur).position⟩ : Cur).position = tok := ht
    rw [hdrop, takeWhile_all _ _ (by intro a ha; simp)]
    simp [hpos]
  simp only [messageFallback, hread]
  rfl

theorem jsonIdent_not_space (a : Char) (h : jsonIdentChar a = true) : isSpaceChar a = false := by
  simp only [jsonIdentChar, isLetterChar, isDigitChar, Bool.or_eq_true, Bool.and_eq_true,
    decide_eq_true_eq] at h
  rcases h with ((((h | h) | h) | h) | h) | h
  · simp [isSpaceChar]; omega
  · simp [isSpaceChar]; omega
  · subst h; decide
  · subst h; decide
  · subst h; decide
  · subst h; decide

theorem newConstructor_not_date (fuel : Nat) (c : Cur) (id rest : List Char)
    (h : c.input.drop c.position = 'n' :: 'e' :: 'w' :: ' ' :: (id ++ rest))
    (hne : id ≠ [])
    (hid : ∀ a ∈ id, jsonIdentChar a = true)
    (hrest : ∀ x, rest.head? = some x → jsonIdentChar x = false)
    (hnd : id.asString ≠ "Date") :
    parseJSONValue (fuel + 1) c =
      (.error (.unknownConstructor id.asString), ⟨c.input, c.position + 4 + id.length⟩) := by
  have hlook : look c 0 = some 'n' := by rw [look_eq_get, h]; rfl
  have h1 : readJSONIdentifier c = ("new", ⟨c.input, c.position + 3⟩) := by
    have := readJSONIdentifier_eq c ['n', 'e', 'w'] (' ' :: (id ++ rest)) h
      (by decide) (by intro x hx; simp at hx; subst hx; decide)
    simpa using this
  have hd3 : c.input.drop (c.position + 3) = [' '] ++ (id ++ rest) :=
    drop_add c ['n', 'e', 'w'] _ h
  obtain ⟨d, t, rfl⟩ : ∃ d t, id = d :: t := by
    cases id with
    | nil => exact absurd rfl hne
    | cons d t => exact ⟨d, t, rfl⟩
  have hws : eatWhitespace (⟨c.input, c.position + 3⟩ : Cur) = ⟨c.input, c.position + 4⟩ := by
    have := eatWhitespace_eq ⟨c.input, c.position + 3⟩ [' '] (d :: t ++ rest) hd3
      (by decide)
      (by intro x hx; simp at hx; subst hx
          exact jsonIdent_not_space d (hid d (by simp)))
    simpa using this
  have hd4 : c.input.drop (c.position + 4) = (d :: t) ++ rest := by
    have := drop_add (⟨c.input, c.position + 3⟩ : Cur) [' '] (d :: t ++ rest) hd3
    simpa using this
  have h2 : readJSONIdentifier (⟨c.input, c.position + 4⟩ : Cur) =
      ((d :: t).asString, ⟨c.input, c.position + 4 + (d :: t).length⟩) :=
    readJSONIdentifier_eq _ (d :: t) rest hd4 hid hrest
  simp only [parseJSONValue, hlook, h1, hws, h2]
  simp [hnd, isDigitChar, isLetterChar]
theorem newDate_ok (fuel : Nat) (c : Cur) (ds rest : List Char)
    (h : c.input.drop c.position =
      'n' :: 'e' :: 'w' :: ' ' :: 'D' :: 'a' :: 't' :: 'e' :: '(' :: (ds ++ ')' :: rest))
    (hne : ds ≠ [])
    (hd : ∀ a ∈ ds, isDigitChar a = true) :
    parseJSONValue (fuel + 1) c =
      (.ok (.vDate (digitsToNat ds)), ⟨c.input, c.position + 10 + ds.length⟩) := by
  have hlook : look c 0 = some 'n' := by rw [look_eq_get, h]; rfl
  have h1 : readJSONIdentifier c = ("new", ⟨c.input, c.position + 3⟩) := by
    have := readJSONIdentifier_eq c ['n', 'e', 'w']
      (' ' :: 'D' :: 'a' :: 't' :: 'e' :: '(' :: (ds ++ ')' :: rest)) h
      (by decide) (by intro x hx; simp at hx; subst hx; decide)
    simpa using this
  have hd3 : c.input.drop (c.position + 3) =
      [' '] ++ ('D' :: 'a' :: 't' :: 'e' :: '(' :: (ds ++ ')' :: rest)) :=
    drop_add c ['n', 'e', 'w'] _ h
  have hws : eatWhitespace (⟨c.input, c.position + 3⟩ : Cur) = ⟨c.input, c.position + 4⟩ := by
    have := eatWhitespace_eq ⟨c.input, c.position + 3⟩ [' ']
      ('D' :: 'a' :: 't' :: 'e' :: '(' :: (ds ++ ')' :: rest)) hd3
      (by decide) (by intro x hx; simp at hx; subst hx; decide)
    simpa using this
  have hd4 : c.input.drop (c.position + 4) =
      ['D', 'a', 't', 'e'] ++ ('(' :: (ds ++ ')' :: rest)) := by
    have := drop_add (⟨c.input, c.position + 3⟩ : Cur) [' '] _ hd3
    simpa using this
  have h2 : readJSONIdentifier (⟨c.input, c.position + 4⟩ : Cur) =
      ("Date", ⟨c.input, c.position + 8⟩) := by
    have := readJSONIdentifier_eq ⟨c.input, c.position + 4⟩ ['D', 'a', 't', 'e']
      ('(' :: (ds ++ ')' :: rest)) hd4
      (by decide) (by intro x hx; simp at hx; subst hx; decide)
    simpa using this
  have hd8 : c.input.drop (c.position + 8) = '(' :: (ds ++ ')' :: rest) := by
    have := drop_add (⟨c.input, c.position + 4⟩ : Cur) ['D', 'a', 't', 'e'] _ hd4
    simpa using this
  have hexp1 : expect '(' (⟨c.input, c.position + 8⟩ : Cur) =
      (.ok (), ⟨c.input, c.position + 9⟩) := expect_eq '(' _ _ hd8
  have hd9 : c.input.drop (c.position + 9) = ds ++ ')' :: rest := by
    have := drop_add (⟨c.input, c.position + 8⟩ : Cur) ['('] _
      (by simpa using hd8)
    simpa using this
  obtain ⟨hq, hden, hnum⟩ := parseDecimal_digits ds hne hd
  have hnumr : readNumber (⟨c.input, c.position + 9⟩ : Cur) =
      (.ok ((digitsToNat ds : ℤ) : ℚ), ⟨c.input, c.position + 9 + ds.length⟩) :=
    readNumber_eq _ ds ')' rest _ hd9
      (by intro a ha; simp [numberChar, hd a ha]) (by decide) hq
  have hd10 : c.input.drop (c.position + 9 + ds.length) = ')' :: rest :=
    drop_add (⟨c.input, c.position + 9⟩ : Cur) ds _ hd9
  have hexp2 : expect ')' (⟨c.input, c.position + 9 + ds.length⟩ : Cur) =
      (.ok (), ⟨c.input, c.position + 9 + ds.length + 1⟩) := expect_eq ')' _ _ hd10
  have hfinal : c.position + 9 + ds.length + 1 = c.position + 10 + ds.length := by omega
  simp only [parseJSONValue, hlook, h1, hws, h2, hexp1, hnumr, hexp2, hfinal]
  simp [isDigitChar, isLetterChar, hden, hnum]

theorem objectId_ok (fuel : Nat) (c : Cur) (q : Char) (hex rest : List Char)
    (hqq : q = '\'' ∨ q = '"')
    (h : c.input.drop c.position =
      'O' :: 'b' :: 'j' :: 'e' :: 'c' :: 't' :: 'I' :: 'd' :: '(' :: q :: (hex ++ q :: ')' :: rest))
    (hhex : ∀ a ∈ hex, isHexChar a = true) :
    parseJSONValue (fuel + 1) c =
      (.ok (.vStr hex.asString), ⟨c.input, c.position + 12 + hex.length⟩) := by
  have hqhex : isHexChar q = false := by rcases hqq with rfl | rfl <;> decide
  have hqid : jsonIdentChar q = false := by rcases hqq with rfl | rfl <;> decide
  have hlook : look c 0 = some 'O' := by rw [look_eq_get, h]; rfl
  have h1 : readJSONIdentifier c = ("ObjectId", ⟨c.input, c.position + 8⟩) := by
    have := readJSONIdentifier_eq c ['O', 'b', 'j', 'e', 'c', 't', 'I', 'd']
      ('(' :: q :: (hex ++ q :: ')' :: rest)) h
      (by decide) (by intro x hx; simp at hx; subst hx; decide)
    simpa using this
  have hd8 : c.input.drop (c.position + 8) = '(' :: q :: (hex ++ q :: ')' :: rest) := by
    have := drop_add c ['O', 'b', 'j', 'e', 'c', 't', 'I', 'd'] _ h
    simpa using this
  have hexp1 : expect '(' (⟨c.input, c.position + 8⟩ : Cur) =
      (.ok (), ⟨c.input, c.position + 9⟩) := expect_eq '(' _ _ hd8
  have hd9 : c.input.drop (c.position + 9) = q :: (hex ++ q :: ')' :: rest) := by
    have := drop_add (⟨c.input, c.position + 8⟩ : Cur) ['('] _ (by simpa using hd8)
    simpa using this
  have hlq : look (⟨c.input, c.position + 9⟩ : Cur) 0 = some q := by
    rw [look_eq_get]
    simp only [hd9]
    rfl
  have hcond : (q = '\'' || q = '"') = true := by
    rcases hqq with rfl | rfl <;> decide
  have hd10 : c.input.drop (c.position + 10) = hex ++ q :: ')' :: rest := by
    have := drop_add (⟨c.input, c.position + 9⟩ : Cur) [q] _ (by simpa using hd9)
    simpa using this
  have hrw : readWhile isHexChar (⟨c.input, c.position + 10⟩ : Cur) =
      (.ok hex.asString, ⟨c.input, c.position + 10 + hex.length⟩) :=
    readWhile_eq _ _ hex q (')' :: rest) hd10 hhex hqhex
  have hd11 : c.input.drop (c.position + 10 + hex.length) = q :: ')' :: rest :=
    drop_add (⟨c.input, c.position + 10⟩ : Cur) hex _ hd10
  have hexp2 : expect q (⟨c.input, c.position + 10 + hex.length⟩ : Cur) =
      (.ok (), ⟨c.input, c.position + 10 + hex.length + 1⟩) := expect_eq q _ _ hd11
  have hd12 : c.input.drop (c.position + 10 + hex.length + 1) = ')' :: rest := by
    have := drop_add (⟨c.input, c.position + 10 + hex.length⟩ : Cur) [q] _
      (by simpa using hd11)
    simpa using this
  have hexp3 : expect ')' (⟨c.input, c.position + 10 + hex.length + 1⟩ : Cur) =
      (.ok (), ⟨c.input, c.position + 10 + hex.length + 1 + 1⟩) := expect_eq ')' _ _ hd12
  have hfinal : c.position + 10 + hex.length + 1 + 1 = c.position + 12 + hex.length := by omega
  simp only [parseJSONValue, hlook, h1, hexp1, hlq, hcond, hrw, hexp2, hexp3, hfinal]
  simp [isDigitChar, isLetterChar]
theorem getElem?_drop_eq (input l : List Char) (pos : Nat) (h : input.drop pos = l) (k : Nat) :
    input[pos + k]? = l[k]? := by
  rw [← List.getElem?_drop, h]

theorem scanEmbeddedJSON_step (f : Nat) (input : List Char) (quoted q' : Bool) (i : Nat) (x : Char)
    (hx : input[i]? = some x)
    (hm1 : matchAhead input i ['"', ',', ' '] = false)
    (hm2 : matchAhead input i ['.', '.', '.', '"', ',', ' '] = false)
    (hnx : input[i + 1]? ≠ none)
    (hq : q' = (if x = '"' then !quoted else quoted)) :
    scanEmbeddedJSON (f + 1) input quoted i = scanEmbeddedJSON f input q' (i + 1) := by
  have hlen : ¬ input.length ≤ i + 1 := by
    intro hle
    exact hnx (List.getElem?_eq_none hle)
  cases quoted <;> simp [scanEmbeddedJSON, hm1, hm2, hx, hq, hlen]

theorem scanEmbeddedJSON_done (f : Nat) (input : List Char) (i : Nat)
    (hm : matchAhead input i ['"', ',', ' '] = true) :
    scanEmbeddedJSON (f + 1) input false i = .ok (i + 1) := by
  simp [scanEmbeddedJSON, hm]

/-- The embedded-JSON blob of the mis-quoted special case, as seen by the
scan loop (everything after the opening quote). -/
def scanBlobC7 : List Char :=
  ['{', '"', 'a', 'l', 'e', 'r', 't', '"', ':', '"', 'x', '"', ',',
   '"', 'i', 'd', '"', ':', '"', '1', '"', '}', '"', ',', ' ']

theorem scanEmbeddedJSON_blob (f : Nat) (input : List Char) (p : Nat) (rest : List Char)
    (h : input.drop p = scanBlobC7 ++ rest) :
    scanEmbeddedJSON (f + 24) input false p = .ok (p + 23) := by
  have hx0 : input[p]? = some '{' := by
    rw [show (p : Nat) = p + 0 from rfl, getElem?_drop_eq input (scanBlobC7 ++ rest) p h 0,
      List.getElem?_append_left (by decide)]
    rfl
  have hx1 : input[p + 1]? = some '\"' := by
    rw [getElem?_drop_eq input (scanBlobC7 ++ rest) p h 1,
      List.getElem?_append_left (by decide)]
    rfl
  have hx2 : input[p + 2]? = some 'a' := by
    rw [getElem?_drop_eq input (scanBlobC7 ++ rest) p h 2,
      List.getElem?_append_left (by decide)]
    rfl
  have hx3 : input[p + 3]? = some 'l' := by
    rw [getElem?_drop_eq input (scanBlobC7 ++ rest) p h 3,
      List.getElem?_append_left (by decide)]
    rfl
  have hx4 : input[p + 4]? = some 'e' := by
    rw [getElem?_drop_eq input (scanBlobC7 ++ rest) p h 4,
      List.getElem?_append_left (by decide)]
    rfl
  have hx5 : input[p + 5]? = some 'r' := by
    rw [getElem?_drop_eq input (scanBlobC7 ++ rest) p h 5,
      List.getElem?_append_left (by decide)]
    rfl
  have hx6 : input[p + 6]? = some 't' := by
    rw [getElem?_drop_eq input (scanBlobC7 ++ rest) p h 6,
      List.getElem?_append_left (by decide)]
    rfl
  have hx7 : input[p + 7]? = some '\"' := by
    rw [getElem?_drop_eq input (scanBlobC7 ++ rest) p h 7,
      List.getElem?_append_left (by decide)]
    rfl
  have hx8 : input[p + 8]? = some ':' := by
    rw [getElem?_drop_eq input (scanBlobC7 ++ rest) p h 8,
      List.getElem?_append_left (by decide)]
    rfl
  have hx9 : input[p + 9]? = some '\"' := by
    rw [getElem?_drop_eq input (scanBlobC7 ++ rest) p h 9,
      List.getElem?_append_left (by decide)]
    rfl
  have hx10 : input[p + 10]? = some 'x' := by
    rw [getElem?_drop_eq input (scanBlobC7 ++ rest) p h 10,
      List.getElem?_append_left (by decide)]
    rfl
  have hx11 : input[p + 11]? = some '\"' := by
    rw [getElem?_drop_eq input (scanBlobC7 ++ rest) p h 11,
      List.getElem?_append_left (by decide)]
    rfl
  have hx12 : input[p + 12]? = some ',' := by
    rw [getElem?_drop_eq input (scanBlobC7 ++ rest) p h 12,
      List.getElem?_append_left (by decide)]
    rfl
  have hx13 : input[p + 13]? = some '\"' := by
    rw [getElem?_drop_eq input (scanBlobC7 ++ rest) p h 13,
      List.getElem?_append_left (by decide)]
    rfl
  have hx14 : input[p + 14]? = some 'i' := by
    rw [getElem?_drop_eq input (scanBlobC7 ++ rest) p h 14,
      List.getElem?_append_left (by decide)]
    rfl
  have hx15 : input[p + 15]? = some 'd' := by
    rw [getElem?_drop_eq input (scanBlobC7 ++ rest) p h 15,
      List.getElem?_append_left (by decide)]
    rfl
  have hx16 : input[p + 16]? = some '\"' := by
    rw [getElem?_drop_eq input (scanBlobC7 ++ rest) p h 16,
      List.getElem?_append_left (by decide)]
    rfl
  have hx17 : input[p + 17]? = some ':' := by
    rw [getElem?_drop_eq input (scanBlobC7 ++ rest) p h 17,
      List.getElem?_append_left (by decide)]
    rfl
  have hx18 : input[p + 18]? = some '\"' := by
    rw [getElem?_drop_eq input (scanBlobC7 ++ rest) p h 18,
      List.getElem?_append_left (by decide)]
    rfl
  have hx19 : input[p + 19]? = some '1' := by
    rw [getElem?_drop_eq input (scanBlobC7 ++ rest) p h 19,
      List.getElem?_append_left (by decide)]
    rfl
  have hx20 : input[p + 20]? = some '\"' := by
    rw [getElem?_drop_eq input (scanBlobC7 ++ rest) p h 20,
      List.getElem?_append_left (by decide)]
    rfl
  have hx21 : input[p + 21]? = some '}' := by
    rw [getElem?_drop_eq input (scanBlobC7 ++ rest) p h 21,
      List.getElem?_append_left (by decide)]
    rfl
  have hx22 : input[p + 22]? = some '\"' := by
    rw [getElem?_drop_eq input (scanBlobC7 ++ rest) p h 22,
      List.getElem?_append_left (by decide)]
    rfl
  have hx23 : input[p + 23]? = some ',' := by
    rw [getElem?_drop_eq input (scanBlobC7 ++ rest) p h 23,
      List.getElem?_append_left (by decide)]
    rfl
  have hx24 : input[p + 24]? = some ' ' := by
    rw [getElem?_drop_eq input (scanBlobC7 ++ rest) p h 24,
      List.getElem?_append_left (by decide)]
    rfl
  have t0 : scanEmbeddedJSON (f + 23 + 1) input false (p) =
      scanEmbeddedJSON (f + 23) input false (p + 1) := by
    refine scanEmbeddedJSON_step (f + 23) input false false (p) '{' hx0 ?_ ?_ ?_ (by decide)
    · simp [matchAhead, hx0, show p + 1 = p + 1 from rfl, hx1,
        show p + 1 + 1 = p + 2 from rfl, hx2]
    · simp [matchAhead, hx0]
    · rw [show p + 1 = p + 1 from rfl, hx1]; simp
  have t1 : scanEmbeddedJSON (f + 22 + 1) input false (p + 1) =
      scanEmbeddedJSON (f + 22) input true (p + 1 + 1) := by
    refine scanEmbeddedJSON_step (f + 22) input false true (p + 1) '\"' hx1 ?_ ?_ ?_ (by decide)
    · simp [matchAhead, hx1, show p + 1 + 1 = p + 2 from rfl, hx2,
        show p + 1 + 1 + 1 = p + 3 from rfl, hx3]
    · simp [matchAhead, hx1]
    · rw [show p + 1 + 1 = p + 2 from rfl, hx2]; simp
  have t2 : scanEmbeddedJSON (f + 21 + 1) input true (p + 2) =
      scanEmbeddedJSON (f + 21) input true (p + 2 + 1) := by
    refine scanEmbeddedJSON_step (f + 21) input true true (p + 2) 'a' hx2 ?_ ?_ ?_ (by decide)
    · simp [matchAhead, hx2, show p + 2 + 1 = p + 3 from rfl, hx3,
        show p + 2 + 1 + 1 = p + 4 from rfl, hx4]
    · simp [matchAhead, hx2]
    · rw [show p + 2 + 1 = p + 3 from rfl, hx3]; simp
  have t3 : scanEmbeddedJSON (f + 20 + 1) input true (p + 3) =
      scanEmbeddedJSON (f + 20) input true (p + 3 + 1) := by
    refine scanEmbeddedJSON_step (f + 20) input true true (p + 3) 'l' hx3 ?_ ?_ ?_ (by decide)
    · simp [matchAhead, hx3, show p + 3 + 1 = p + 4 from rfl, hx4,
        show p + 3 + 1 + 1 = p + 5 from rfl, hx5]
    · simp [matchAhead, hx3]
    · rw [show p + 3 + 1 = p + 4 from rfl, hx4]; simp
  have t4 : scanEmbeddedJSON (f + 19 + 1) input true (p + 4) =
      scanEmbeddedJSON (f + 19) input true (p + 4 + 1) := by
    refine scanEmbeddedJSON_step (f + 19) input true true (p + 4) 'e' hx4 ?_ ?_ ?_ (by decide)
    · simp [matchAhead, hx4, show p + 4 + 1 = p + 5 from rfl, hx5,
        show p + 4 + 1 + 1 = p + 6 from rfl, hx6]
    · simp [matchAhead, hx4]
    · rw [show p + 4 + 1 = p + 5 from rfl, hx5]; simp
  have t5 : scanEmbeddedJSON (f + 18 + 1) input true (p + 5) =
      scanEmbeddedJSON (f + 18) input true (p + 5 + 1) := by
    refine scanEmbeddedJSON_step (f + 18) input true true (p + 5) 'r' hx5 ?_ ?_ ?_ (by decide)
    · simp [matchAhead, hx5, show p + 5 + 1 = p + 6 from rfl, hx6,
        show p + 5 + 1 + 1 = p + 7 from rfl, hx7]
    · simp [matchAhead, hx5]
    · rw [show p + 5 + 1 = p + 6 from rfl, hx6]; simp
  have t6 : scanEmbeddedJSON (f + 17 + 1) input true (p + 6) =
      scanEmbeddedJSON (f + 17) input true (p + 6 + 1) := by
    refine scanEmbeddedJSON_step (f + 17) input true true (p + 6) 't' hx6 ?_ ?_ ?_ (by decide)
    · simp [matchAhead, hx6, show p + 6 + 1 = p + 7 from rfl, hx7,
        show p + 6 + 1 + 1 = p + 8 from rfl, hx8]
    · simp [matchAhead, hx6]
    · rw [show p + 6 + 1 = p + 7 from rfl, hx7]; simp
  have t7 : scanEmbeddedJSON (f + 16 + 1) input true (p + 7) =
      scanEmbeddedJSON (f + 16) input false (p + 7 + 1) := by
    refine scanEmbeddedJSON_step (f + 16) input true false (p + 7) '\"' hx7 ?_ ?_ ?_ (by decide)
    · simp [matchAhead, hx7, show p + 7 + 1 = p + 8 from rfl, hx8,
        show p + 7 + 1 + 1 = p + 9 from rfl, hx9]
    · simp [matchAhead, hx7]
    · rw [show p + 7 + 1 = p + 8 from rfl, hx8]; simp
  have t8 : scanEmbeddedJSON (f + 15 + 1) input false (p + 8) =
      scanEmbeddedJSON (f + 15) input false (p + 8 + 1) := by
    refine scanEmbeddedJSON_step (f + 15) input false false (p + 8) ':' hx8 ?_ ?_ ?_ (by decide)
    · simp [matchAhead, hx8, show p + 8 + 1 = p + 9 from rfl, hx9,
        show p + 8 + 1 + 1 = p + 10 from rfl, hx10]
    · simp [matchAhead, hx8]
    · rw [show p + 8 + 1 = p + 9 from rfl, hx9]; simp
  have t9 : scanEmbeddedJSON (f + 14 + 1) input false (p + 9) =
      scanEmbeddedJSON (f + 14) input true (p + 9 + 1) := by
    refine scanEmbeddedJSON_step (f + 14) input false true (p + 9) '\"' hx9 ?_ ?_ ?_ (by decide)
    · simp [matchAhead, hx9, show p + 9 + 1 = p + 10 from rfl, hx10,
        show p + 9 + 1 + 1 = p + 11 from rfl, hx11]
    · simp [matchAhead, hx9]
    · rw [show p + 9 + 1 = p + 10 from rfl, hx10]; simp
  have t10 : scanEmbeddedJSON (f + 13 + 1) input true (p + 10) =
      scanEmbeddedJSON (f + 13) input true (p + 10 + 1) := by
    refine scanEmbeddedJSON_step (f + 13) input true true (p + 10) 'x' hx10 ?_ ?_ ?_ (by decide)
    · simp [matchAhead, hx10, show p + 10 + 1 = p + 11 from rfl, hx11,
        show p + 10 + 1 + 1 = p + 12 from rfl, hx12]
    · simp [matchAhead, hx10]
    · rw [show p + 10 + 1 = p + 11 from rfl, hx11]; simp
  have t11 : scanEmbeddedJSON (f + 12 + 1) input true (p + 11) =
      scanEmbeddedJSON (f + 12) input false (p + 11 + 1) := by
    refine scanEmbeddedJSON_step (f + 12) input true false (p + 11) '\"' hx11 ?_ ?_ ?_ (by decide)
    · simp [matchAhead, hx11, show p + 11 + 1 = p + 12 from rfl, hx12,
        show p + 11 + 1 + 1 = p + 13 from rfl, hx13]
    · simp [matchAhead, hx11]
    · rw [show p + 11 + 1 = p + 12 from rfl, hx12]; simp
  have t12 : scanEmbeddedJSON (f + 11 + 1) input false (p + 12) =
      scanEmbeddedJSON (f + 11) input false (p + 12 + 1) := by
    refine scanEmbeddedJSON_step (f + 11) input false false (p + 12) ',' hx12 ?_ ?_ ?_ (by decide)
    · simp [matchAhead, hx12, show p + 12 + 1 = p + 13 from rfl, hx13,
        show p + 12 + 1 + 1 = p + 14 from rfl, hx14]
    · simp [matchAhead, hx12]
    · rw [show p + 12 + 1 = p + 13 from rfl, hx13]; simp
  have t13 : scanEmbeddedJSON (f + 10 + 1) input false (p + 13) =
      scanEmbeddedJSON (f + 10) input true (p + 13 + 1) := by
    refine scanEmbeddedJSON_step (f + 10) input false true (p + 13) '\"' hx13 ?_ ?_ ?_ (by decide)
    · simp [matchAhead, hx13, show p + 13 + 1 = p + 14 from rfl, hx14,
        show p + 13 + 1 + 1 = p + 15 from rfl, hx15]
    · simp [matchAhead, hx13]
    · rw [show p + 13 + 1 = p + 14 from rfl, hx14]; simp
  have t14 : scanEmbeddedJSON (f + 9 + 1) input true (p + 14) =
      scanEmbeddedJSON (f + 9) input true (p + 14 + 1) := by
    refine scanEmbeddedJSON_step (f + 9) input true true (p + 14) 'i' hx14 ?_ ?_ ?_ (by decide)
    · simp [matchAhead, hx14, show p + 14 + 1 = p + 15 from rfl, hx15,
        show p + 14 + 1 + 1 = p + 16 from rfl, hx16]
    · simp [matchAhead, hx14]
    · rw [show p + 14 + 1 = p + 15 from rfl, hx15]; simp
  have t15 : scanEmbeddedJSON (f + 8 + 1) input true (p + 15) =
      scanEmbeddedJSON (f + 8) input true (p + 15 + 1) := by
    refine scanEmbeddedJSON_step (f + 8) input true true (p + 15) 'd' hx15 ?_ ?_ ?_ (by decide)
    · simp [matchAhead, hx15, show p + 15 + 1 = p + 16 from rfl, hx16,
        show p + 15 + 1 + 1 = p + 17 from rfl, hx17]
    · simp [matchAhead, hx15]
    · rw [show p + 15 + 1 = p + 16 from rfl, hx16]; simp
  have t16 : scanEmbeddedJSON (f + 7 + 1) input true (p + 16) =
      scanEmbeddedJSON (f + 7) input false (p + 16 + 1) := by
    refine scanEmbeddedJSON_step (f + 7) input true false (p + 16) '\"' hx16 ?_ ?_ ?_ (by decide)
    · simp [matchAhead, hx16, show p + 16 + 1 = p + 17 from rfl, hx17,
        show p + 16 + 1 + 1 = p + 18 from rfl, hx18]
    · simp [matchAhead, hx16]
    · rw [show p + 16 + 1 = p + 17 from rfl, hx17]; simp
  have t17 : scanEmbeddedJSON (f + 6 + 1) input false (p + 17) =
      scanEmbeddedJSON (f + 6) input false (p + 17 + 1) := by
    refine scanEmbeddedJSON_step (f + 6) input false false (p + 17) ':' hx17 ?_ ?_ ?_ (by decide)
    · simp [matchAhead, hx17, show p + 17 + 1 = p + 18 from rfl, hx18,
        show p + 17 + 1 + 1 = p + 19 from rfl, hx19]
    · simp [matchAhead, hx17]
    · rw [show p + 17 + 1 = p + 18 from rfl, hx18]; simp
  have t18 : scanEmbeddedJSON (f + 5 + 1) input false (p + 18) =
      scanEmbeddedJSON (f + 5) input true (p + 18 + 1) := by
    refine scanEmbeddedJSON_step (f + 5) input false true (p + 18) '\"' hx18 ?_ ?_ ?_ (by decide)
    · simp [matchAhead, hx18, show p + 18 + 1 = p + 19 from rfl, hx19,
        show p + 18 + 1 + 1 = p + 20 from rfl, hx20]
    · simp [matchAhead, hx18]
    · rw [show p + 18 + 1 = p + 19 from rfl, hx19]; simp
  have t19 : scanEmbeddedJSON (f + 4 + 1) input true (p + 19) =
      scanEmbeddedJSON (f + 4) input true (p + 19 + 1) := by
    refine scanEmbeddedJSON_step (f + 4) input true true (p + 19) '1' hx19 ?_ ?_ ?_ (by decide)
    · simp [matchAhead, hx19, show p + 19 + 1 = p + 20 from rfl, hx20,
        show p + 19 + 1 + 1 = p + 21 from rfl, hx21]
    · simp [matchAhead, hx19]
    · rw [show p + 19 + 1 = p + 20 from rfl, hx20]; simp
  have t20 : scanEmbeddedJSON (f + 3 + 1) input true (p + 20) =
      scanEmbeddedJSON (f + 3) input false (p + 20 + 1) := by
    refine scanEmbeddedJSON_step (f + 3) input true false (p + 20) '\"' hx20 ?_ ?_ ?_ (by decide)
    · simp [matchAhead, hx20, show p + 20 + 1 = p + 21 from rfl, hx21,
        show p + 20 + 1 + 1 = p + 22 from rfl, hx22]
    · simp [matchAhead, hx20]
    · rw [show p + 20 + 1 = p + 21 from rfl, hx21]; simp
  have t21 : scanEmbeddedJSON (f + 2 + 1) input false (p + 21) =
      scanEmbeddedJSON (f + 2) input false (p + 21 + 1) := by
    refine scanEmbeddedJSON_step (f + 2) input false false (p + 21) '}' hx21 ?_ ?_ ?_ (by decide)
    · simp [matchAhead, hx21, show p + 21 + 1 = p + 22 from rfl, hx22,
        show p + 21 + 1 + 1 = p + 23 from rfl, hx23]
    · simp [matchAhead, hx21]
    · rw [show p + 21 + 1 = p + 22 from rfl, hx22]; simp
  have hm22 : matchAhead input (p + 22) ['\"', ',', ' '] = true := by
    simp [matchAhead, hx22, show p + 22 + 1 = p + 23 from rfl, hx23,
      show p + 22 + 1 + 1 = p + 24 from rfl, hx24]
  have t22 := scanEmbeddedJSON_done (f + 1) input (p + 22) hm22
  exact t0.trans (t1.trans (t2.trans (t3.trans (t4.trans (t5.trans (t6.trans (t7.trans (t8.trans (t9.trans (t10.trans (t11.trans (t12.trans (t13.trans (t14.trans (t15.trans (t16.trans (t17.trans (t18.trans (t19.trans (t20.trans (t21.trans (t22))))))))))))))))))))))
theorem embeddedJSON_capture (fuel : Nat) (c : Cur) (rest : List Char)
    (h : c.input.drop c.position = '"' :: (scanBlobC7 ++ rest)) :
    parseJSONValue (fuel + 25) c =
      (.ok (.vStr (scanBlobC7.take 23).asString), ⟨c.input, c.position + 24⟩) := by
  have hlook0 : look c 0 = some '"' := by rw [look_eq_get, h]; rfl
  have hlook1 : look c 1 = some '{' := by rw [look_eq_get, h]; rfl
  have hd1 : c.input.drop (c.position + 1) = scanBlobC7 ++ rest := by
    have := drop_add c ['"'] (scanBlobC7 ++ rest) (by simpa using h)
    simpa using this
  have hscan := scanEmbeddedJSON_blob fuel c.input (c.position + 1) rest hd1
  have hsub : c.position + 1 + 23 - (c.position + 1) = 23 := by omega
  have htake : (scanBlobC7 ++ rest).take 23 = scanBlobC7.take 23 := by
    rw [List.take_append_eq_append_take]
    simp [scanBlobC7]
  simp only [parseJSONValue, hlook0, hlook1, hscan, hd1, hsub, htake]
  simp [isDigitChar, isLetterChar]

theorem readUntilRune_ok_inv (u : Char) (c : Cur) (str : String) (c' : Cur)
    (h : readUntilRune (some u) c = (.ok str, c')) :
    str.data = (c.input.drop c.position).takeWhile (fun a => a ≠ u) ∧
    c' = ⟨c.input, c.position + str.data.length⟩ := by
  have hpred : (fun ch => decide (some u ≠ some ch)) = (fun a => decide (a ≠ u)) := by
    funext a
    simp [eq_comm]
  simp only [readUntilRune] at h
  split at h
  · simp at h
  · simp only [Prod.mk.injEq, Except.ok.injEq] at h
    obtain ⟨h1, h2⟩ := h
    subst h1
    subst h2
    constructor
    · rw [← hpred]
      exact rfl
    · exact rfl

/-- `parseStringValue` returns the verbatim span between the opening quote
and the first occurrence of the quote rune: no escape interpretation. -/
theorem parseStringValue_verbatim (quote : Char) (c c' : Cur) (str : String)
    (h : parseStringValue quote c = (.ok str, c')) :
    str.data = (c.input.drop (c.position + 1)).takeWhile (fun a => a ≠ quote) ∧
    c' = ⟨c.input, c.position + 1 + str.data.length + 1⟩ := by
  simp only [parseStringValue] at h
  split at h
  · simp at h
  · rename_i str0 c0 heq
    simp only [Prod.mk.injEq, Except.ok.injEq] at h
    obtain ⟨h1, h2⟩ := h
    subst h1
    obtain ⟨hv, hc⟩ := readUntilRune_ok_inv quote _ str0 c0 heq
    constructor
    · exact hv
    · rw [← h2, hc]
/-! ## Claim theorems -/

/-- C1 (corrected): on every line on which `Parse` succeeds, the key
insertion order of the output record is exactly `timestamp, severity,
component, context`, then either `message` or `operation, namespace`, the
operation-specific fields in emission order and, when the field loop ended
by consuming a trailing duration, `duration` last; the claim's
unconditional trailing `duration` is wrong — when the value of the final
field ends exactly at end-of-input the loop exits at the sentinel and no
`duration` is inserted. -/
theorem claim_C1_key_order (input : String) (s' : PState)
    (h : Parse (parseFuel input) (initState input) = (.ok (), s')) :
    ∃ rest, s'.fields.map Prod.fst =
        "timestamp" :: "severity" :: "component" :: "context" :: rest ∧
      (rest = ["message"] ∨
        ∃ ops, rest = "operation" :: "namespace" :: ops ∧
          ((∃ ops0, ops = ops0 ++ ["duration"]) ∨
            s'.cur.input.length ≤ s'.cur.position)) :=
  Parse_key_order (parseFuel input) input s' h

/-- C1 counterexample: a parse that succeeds with key order ending in the
plain field `x` — neither the `message` shape nor the
`operation, namespace, …, duration` shape of the claim. -/
theorem claim_C1_counterexample :
    ParseLogLine "2015-11-10T16:20:07.000Z I WRITE [c9] insert db.t x:\"y\"" =
      .ok [("timestamp", Value.vStr "2015-11-10T16:20:07.000Z"),
           ("severity", Value.vStr "informational"),
           ("component", Value.vStr "WRITE"), ("context", Value.vStr "c9"),
           ("operation", Value.vStr "insert"), ("namespace", Value.vStr "db.t"),
           ("x", Value.vStr "y")] ∧
    ([("timestamp", Value.vStr "2015-11-10T16:20:07.000Z"),
      ("severity", Value.vStr "informational"),
      ("component", Value.vStr "WRITE"), ("context", Value.vStr "c9"),
      ("operation", Value.vStr "insert"), ("namespace", Value.vStr "db.t"),
      ("x", Value.vStr "y")] : List (String × Value)).map Prod.fst =
      ["timestamp", "severity", "component", "context", "operation", "namespace", "x"] ∧
    ¬ ∃ rest,
        (["timestamp", "severity", "component", "context", "operation", "namespace", "x"] :
            List String) =
          "timestamp" :: "severity" :: "component" :: "context" :: rest ∧
        (rest = ["message"] ∨
          ∃ ops0, rest = "operation" :: "namespace" :: (ops0 ++ ["duration"])) := by
  refine ⟨by rfl, by rfl, ?_⟩
  rintro ⟨rest, hk, hcase⟩
  have hr : rest = ["operation", "namespace", "x"] := by
    simp only [List.cons.injEq, true_and] at hk
    exact hk.symm
  subst hr
  rcases hcase with h | ⟨ops0, h⟩
  · simp at h
  · simp only [List.cons.injEq, true_and] at h
    rcases ops0 with _ | ⟨a, t⟩
    · simp at h
    · have hlen := congrArg List.length h
      simp at hlen

/-- C1 witness: the claimed order on a message-branch line. -/
theorem claim_C1_witness :
    ∃ rest,
      ([("timestamp", Value.vStr "2016-01-01T00:00:00.000Z"),
        ("severity", Value.vStr "fatal"), ("component", Value.vStr "CONTROL"),
        ("context", Value.vStr "main"),
        ("message", Value.vStr "shutting down")] : List (String × Value)).map Prod.fst =
        "timestamp" :: "severity" :: "component" :: "context" :: rest ∧
      (rest = ["message"] ∨
        ∃ ops, rest = "operation" :: "namespace" :: ops ∧
          ((∃ ops0, ops = ops0 ++ ["duration"]) ∨
            ("2016-01-01T00:00:00.000Z F CONTROL [main] shutting down".data).length ≤ 55)) :=
  claim_C1_key_order "2016-01-01T00:00:00.000Z F CONTROL [main] shutting down"
    ⟨⟨"2016-01-01T00:00:00.000Z F CONTROL [main] shutting down".data, 55⟩,
     [("timestamp", Value.vStr "2016-01-01T00:00:00.000Z"),
      ("severity", Value.vStr "fatal"), ("component", Value.vStr "CONTROL"),
      ("context", Value.vStr "main"),
      ("message", Value.vStr "shutting down")]⟩ (by rfl)

/-- C2 (code bug): the claim says a line whose timestamp is followed, after
whitespace, by `[` fails with the unsupported-version error before severity
parsing; in the code the `[` check runs without skipping the whitespace
that `parseTimestamp` always stops on, so the pre-3.0 branch is dead and
such lines run severity parsing and fail with unknown-severity on `[`. -/
theorem claim_C2_pre30_dead_check :
    ParseLogLine "2015-11-10T16:20:07.000Z [conn1] query test.foo 0ms" =
      .error (.unknownSeverity (some '[')) ∧
    ParseLogLine "2015-11-10T16:20:07.000Z [conn1] query test.foo 0ms" ≠
      .error .panicPre30 := by
  have h : ParseLogLine "2015-11-10T16:20:07.000Z [conn1] query test.foo 0ms" =
      .error (.unknownSeverity (some '[')) := by rfl
  refine ⟨h, ?_⟩
  rw [h]
  simp

/-- C3 (corrected): on a message whose probe hits an operation name, a
successful parse appends `operation`, `namespace` and the loop insertions,
and either the loop ended by consuming a trailing duration — `duration`
being the last insertion — or the cursor reached end-of-input and no
`duration` key exists, contrary to the claim's unconditional duration. -/
theorem claim_C3_duration (fuel : Nat) (s s' : PState) (tok : String) (c1 : Cur)
    (hp : readUntil isSpaceChar (eatWhitespace s.cur) = (.ok tok, c1))
    (hop : isOperationName tok = true)
    (h : parseMessage fuel s = (.ok (), s')) :
    ∃ v2 d, s'.fields = s.fields ++ ("operation", Value.vStr tok) :: ("namespace", v2) :: d ∧
      ((∃ d0 q, d = d0 ++ [("duration", Value.vNum q)]) ∨
        s'.cur.input.length ≤ s'.cur.position) := by
  simp only [parseMessage, hp, hop, if_true] at h
  split at h
  · simp at h
  · rename_i ns c3 hns
    obtain ⟨d, hd, hcase⟩ := parseOperationBody_fields fuel _ _ h
    refine ⟨.vStr ns, d, ?_, hcase⟩
    rw [hd]
    simp [setField]

/-- C3 counterexample: an operation line that parses successfully with no
`duration` key (the string value of the last field ends the line). -/
theorem claim_C3_counterexample :
    ParseLogLine "2015-11-10T16:20:07.000Z I QUERY [c1] query test.foo reslen:\"x\"" =
      .ok [("timestamp", Value.vStr "2015-11-10T16:20:07.000Z"),
           ("severity", Value.vStr "informational"),
           ("component", Value.vStr "QUERY"), ("context", Value.vStr "c1"),
           ("operation", Value.vStr "query"), ("namespace", Value.vStr "test.foo"),
           ("reslen", Value.vStr "x")] ∧
    lookupF "duration"
      [("timestamp", Value.vStr "2015-11-10T16:20:07.000Z"),
       ("severity", Value.vStr "informational"),
       ("component", Value.vStr "QUERY"), ("context", Value.vStr "c1"),
       ("operation", Value.vStr "query"), ("namespace", Value.vStr "test.foo"),
       ("reslen", Value.vStr "x")] = none ∧
    lookupF "operation"
      [("timestamp", Value.vStr "2015-11-10T16:20:07.000Z"),
       ("severity", Value.vStr "informational"),
       ("component", Value.vStr "QUERY"), ("context", Value.vStr "c1"),
       ("operation", Value.vStr "query"), ("namespace", Value.vStr "test.foo"),
       ("reslen", Value.vStr "x")] = some (Value.vStr "query") :=
  ⟨by rfl, by rfl, by rfl⟩

/-- C3 witness: an operation line ending in a duration. -/
theorem claim_C3_witness :
    ∃ v2 d,
      ([("operation", Value.vStr "query"), ("namespace", Value.vStr "test.w"),
        ("n", Value.vNum 7), ("duration", Value.vNum 4)] : List (String × Value)) =
        [] ++ ("operation", Value.vStr "query") :: ("namespace", v2) :: d ∧
      ((∃ d0 q, d = d0 ++ [("duration", Value.vNum q)]) ∨
        ("query test.w n:7 4ms".data).length ≤ 20) :=
  claim_C3_duration 99 ⟨⟨"query test.w n:7 4ms".data, 0⟩, []⟩
    ⟨⟨"query test.w n:7 4ms".data, 20⟩,
     [("operation", Value.vStr "query"), ("namespace", Value.vStr "test.w"),
      ("n", Value.vNum 7), ("duration", Value.vNum 4)]⟩
    "query" ⟨"query test.w n:7 4ms".data, 5⟩ (by rfl) (by rfl) (by rfl)
/-- C4 (corrected): `parseFieldAndValue` reports "no more fields"
(`done = true`) exactly when no `:` occurs anywhere in the rest of the
line — not merely in the next whitespace-delimited token, since
`readUntilRune(':')` does not stop at whitespace — and on that outcome the
cursor is restored to the position saved after the whitespace skip, the
field record is unchanged, and no error is surfaced. -/
theorem claim_C4_no_more_fields (fuel : Nat) (s : PState) :
    ((∃ s', parseFieldAndValue fuel s = (.ok true, s')) ↔
      ∀ a ∈ s.cur.input.drop (eatWhitespace s.cur).position, a ≠ ':') ∧
    (∀ s', parseFieldAndValue fuel s = (.ok true, s') →
      s' = ⟨⟨s.cur.input, (eatWhitespace s.cur).position⟩, s.fields⟩) :=
  parseFieldAndValue_done_iff fuel s

/-- C4 counterexample: the next whitespace-delimited token `foo` contains
no colon, yet the probe finds the colon of the later token `bar:` and a
field named `foo bar` is parsed — "no more fields" is not reported. -/
theorem claim_C4_counterexample :
    ("foo bar:1 2ms".data.takeWhile (fun a => !isSpaceChar a)) = "foo".data ∧
    (∀ a ∈ "foo".data, a ≠ ':') ∧
    parseFieldAndValue 99 ⟨⟨"foo bar:1 2ms".data, 0⟩, []⟩ =
      (.ok false, ⟨⟨"foo bar:1 2ms".data, 9⟩, [("foo bar", Value.vNum 1)]⟩) :=
  ⟨by rfl, by decide, by rfl⟩

/-- C4 witness: a colon-free tail reports "no more fields". -/
theorem claim_C4_witness :
    ∃ s', parseFieldAndValue 3 ⟨⟨" 5ms".data, 0⟩, []⟩ = (.ok true, s') :=
  (claim_C4_no_more_fields 3 ⟨⟨" 5ms".data, 0⟩, []⟩).1.mpr (by decide)

/-- C5 (confirmed): after the identifier `new`, the parser skips
whitespace, reads the next identifier, fails with *unknown-constructor*
when it is not `Date`, and otherwise expects `(`, reads a number, expects
`)`, requires it to be integral (else *date-not-integer*), and yields the
datetime of that many UNIX milliseconds. -/
theorem claim_C5_new_date :
    (∀ (fuel : Nat) (c : Cur) (id rest : List Char),
      c.input.drop c.position = 'n' :: 'e' :: 'w' :: ' ' :: (id ++ rest) →
      id ≠ [] → (∀ a ∈ id, jsonIdentChar a = true) →
      (∀ x, rest.head? = some x → jsonIdentChar x = false) →
      id.asString ≠ "Date" →
      parseJSONValue (fuel + 1) c =
        (.error (.unknownConstructor id.asString), ⟨c.input, c.position + 4 + id.length⟩)) ∧
    (∀ (fuel : Nat) (c : Cur) (ds rest : List Char),
      c.input.drop c.position =
        'n' :: 'e' :: 'w' :: ' ' :: 'D' :: 'a' :: 't' :: 'e' :: '(' :: (ds ++ ')' :: rest) →
      ds ≠ [] → (∀ a ∈ ds, isDigitChar a = true) →
      parseJSONValue (fuel + 1) c =
        (.ok (.vDate (digitsToNat ds)), ⟨c.input, c.position + 10 + ds.length⟩)) ∧
    parseJSONValue 99 (⟨"new Date(1.5)x".data, 0⟩ : Cur) =
      (.error .dateNotInt, ⟨"new Date(1.5)x".data, 13⟩) :=
  ⟨newConstructor_not_date, newDate_ok, by rfl⟩

/-- C5 witness: a non-Date constructor fails; an integral Date succeeds. -/
theorem claim_C5_witness :
    parseJSONValue (7 + 1) (⟨"new Foo(1)".data, 0⟩ : Cur) =
      (.error (.unknownConstructor "Foo"), ⟨"new Foo(1)".data, 7⟩) ∧
    parseJSONValue (98 + 1) (⟨"new Date(99)x".data, 0⟩ : Cur) =
      (.ok (.vDate 99), ⟨"new Date(99)x".data, 12⟩) := by
  constructor
  · exact claim_C5_new_date.1 7 ⟨"new Foo(1)".data, 0⟩ "Foo".data "(1)".data (by rfl)
      (by decide) (by decide) (by intro x hx; simp at hx; subst hx; decide) (by decide)
  · exact claim_C5_new_date.2.1 98 ⟨"new Date(99)x".data, 0⟩ "99".data "x".data (by rfl)
      (by decide) (by decide)

/-- C6 (corrected): `ObjectId(` expects a quote rune `'` or `"`, a run of
hexadecimal digits and the same remembered quote before `)`, but the
resulting value is the plain hex string — the same `vStr` an ordinary
quoted string yields — not a kind-tagged opaque value. -/
theorem claim_C6_objectid_string :
    (∀ (fuel : Nat) (c : Cur) (q : Char) (hex rest : List Char),
      (q = '\'' ∨ q = '"') →
      c.input.drop c.position =
        'O' :: 'b' :: 'j' :: 'e' :: 'c' :: 't' :: 'I' :: 'd' :: '(' :: q ::
          (hex ++ q :: ')' :: rest) →
      (∀ a ∈ hex, isHexChar a = true) →
      parseJSONValue (fuel + 1) c =
        (.ok (.vStr hex.asString), ⟨c.input, c.position + 12 + hex.length⟩)) ∧
    parseJSONValue 99 (⟨"ObjectId('abc\") x".data, 0⟩ : Cur) =
      (.error (.expected '\'' (some '"')), ⟨"ObjectId('abc\") x".data, 14⟩) :=
  ⟨objectId_ok, by rfl⟩

/-- C6 counterexample: the ObjectId constructor and a plain quoted string
produce the very same value — there is no kind tag distinguishing them. -/
theorem claim_C6_counterexample :
    (parseJSONValue 99 (⟨"ObjectId(\"507f1f77bcf86cd799439011\") x".data, 0⟩ : Cur)).1 =
      .ok (Value.vStr "507f1f77bcf86cd799439011") ∧
    (parseJSONValue 99 (⟨"\"507f1f77bcf86cd799439011\" x".data, 0⟩ : Cur)).1 =
      .ok (Value.vStr "507f1f77bcf86cd799439011") ∧
    (parseJSONValue 99 (⟨"ObjectId(\"507f1f77bcf86cd799439011\") x".data, 0⟩ : Cur)).1 =
      (parseJSONValue 99 (⟨"\"507f1f77bcf86cd799439011\" x".data, 0⟩ : Cur)).1 :=
  ⟨by rfl, by rfl, by rfl⟩

/-- C6 witness: a single-quoted hex run parses to its payload string. -/
theorem claim_C6_witness :
    parseJSONValue (9 + 1) (⟨"ObjectId('ab') r".data, 0⟩ : Cur) =
      (.ok (.vStr "ab"), ⟨"ObjectId('ab') r".data, 14⟩) :=
  claim_C6_objectid_string.1 9 ⟨"ObjectId('ab') r".data, 0⟩ '\'' "ab".data " r".data
    (Or.inl rfl) (by rfl) (by decide)

/-- C7 (corrected): a value opening `"{` is scanned with the quote-toggle
until the unquoted `", ` terminator (or, in-quote, the `...", ` marker),
ending on the comma; the capture runs from the rune after the opening
quote up to the comma, so it INCLUDES the closing quote — the field
`payload: "{"alert":"x","id":"1"}", ` yields the raw string
`{"alert":"x","id":"1"}"`, not the claim's `{"alert":"x","id":"1"}`;
hitting end-of-input first fails with *truncated-embedded-json*. -/
theorem claim_C7_embedded_json :
    (∀ (fuel : Nat) (c : Cur) (rest : List Char),
      c.input.drop c.position = ("\"\x7b\"alert\":\"x\",\"id\":\"1\"\x7d\", ").data ++ rest →
      parseJSONValue (fuel + 25) c =
        (.ok (.vStr "\x7b\"alert\":\"x\",\"id\":\"1\"\x7d\""), ⟨c.input, c.position + 24⟩)) ∧
    parseJSONValue 99 (⟨"\"\x7babc".data, 0⟩ : Cur) =
      (.error .unexpectedEndJSON, ⟨"\"\x7babc".data, 1⟩) := by
  constructor
  · intro fuel c rest h
    exact embeddedJSON_capture fuel c rest (by exact h)
  · rfl

/-- C7 counterexample: on the spec's own example value the captured raw
string carries the trailing quote, differing from the claimed capture. -/
theorem claim_C7_counterexample :
    (parseJSONValue 99
        (⟨("\"\x7b\"alert\":\"x\",\"id\":\"1\"\x7d\", ok: 1").data, 0⟩ : Cur)).1 =
      .ok (Value.vStr "\x7b\"alert\":\"x\",\"id\":\"1\"\x7d\"") ∧
    ("\x7b\"alert\":\"x\",\"id\":\"1\"\x7d\"" : String) ≠
      "\x7b\"alert\":\"x\",\"id\":\"1\"\x7d" :=
  ⟨by rfl, by decide⟩

/-- C7 witness: the capture on a concrete continuation. -/
theorem claim_C7_witness :
    parseJSONValue (74 + 25)
        (⟨("\"\x7b\"alert\":\"x\",\"id\":\"1\"\x7d\", ok: 1").data, 0⟩ : Cur) =
      (.ok (.vStr "\x7b\"alert\":\"x\",\"id\":\"1\"\x7d\""),
       ⟨("\"\x7b\"alert\":\"x\",\"id\":\"1\"\x7d\", ok: 1").data, 24⟩) :=
  claim_C7_embedded_json.1 74 ⟨("\"\x7b\"alert\":\"x\",\"id\":\"1\"\x7d\", ok: 1").data, 0⟩
    ("ok: 1").data (by rfl)

/-- C8 (confirmed): at the three probe points — operation-name probe in
the message, field-and-value probe, plan-summary stage probe — a failed
probe hands control on with the cursor restored to the saved position
(taken after the whitespace skip) and the field record exactly as before
the probe; the plan-summary parser never touches the record at all. -/
theorem claim_C8_probe_backtrack (fuel : Nat) (s : PState) (c : Cur) :
    ((∀ tok c1, readUntil isSpaceChar (eatWhitespace s.cur) = (.ok tok, c1) →
        isOperationName tok = false →
        parseMessage fuel s =
          messageFallback ⟨⟨s.cur.input, (eatWhitespace s.cur).position⟩, s.fields⟩) ∧
      (∀ e c1, readUntil isSpaceChar (eatWhitespace s.cur) = (.error e, c1) →
        parseMessage fuel s =
          messageFallback ⟨⟨s.cur.input, (eatWhitespace s.cur).position⟩, s.fields⟩)) ∧
    ((∀ a ∈ s.cur.input.drop (eatWhitespace s.cur).position, a ≠ ':') →
      parseFieldAndValue fuel s =
        (.ok true, ⟨⟨s.cur.input, (eatWhitespace s.cur).position⟩, s.fields⟩)) ∧
    (∀ e c1, readUpcaseIdentifier (eatWhitespace c) = (.error e, c1) →
      parsePlanSummaryElement fuel c = (.ok none, ⟨c.input, (eatWhitespace c).position⟩)) :=
  ⟨parseMessage_probe_restore fuel s,
   parseFieldAndValue_probe_restore fuel s,
   fun e c1 h => parsePlanSummaryElement_probe_restore fuel c e c1 h⟩

/-- C8 witness: the three probes on concrete states. -/
theorem claim_C8_witness :
    parseMessage 9 ⟨⟨"hello world".data, 0⟩, [("k", Value.vNull)]⟩ =
      messageFallback ⟨⟨"hello world".data, 0⟩, [("k", Value.vNull)]⟩ ∧
    parseFieldAndValue 3 ⟨⟨" 5ms".data, 0⟩, [("k", Value.vNull)]⟩ =
      (.ok true, ⟨⟨" 5ms".data, 1⟩, [("k", Value.vNull)]⟩) ∧
    parsePlanSummaryElement 9 (⟨" xyz".data, 0⟩ : Cur) = (.ok none, ⟨" xyz".data, 1⟩) := by
  refine ⟨?_, ?_, ?_⟩
  · exact (claim_C8_probe_backtrack 9 ⟨⟨"hello world".data, 0⟩, [("k", Value.vNull)]⟩
      ⟨[], 0⟩).1.1 "hello" ⟨"hello world".data, 5⟩ (by rfl) (by rfl)
  · exact (claim_C8_probe_backtrack 3 ⟨⟨" 5ms".data, 0⟩, [("k", Value.vNull)]⟩
      ⟨[], 0⟩).2.1 (by decide)
  · exact (claim_C8_probe_backtrack 9 ⟨⟨[], 0⟩, []⟩ ⟨" xyz".data, 0⟩).2.2
      (.illegalRune (some 'x')) ⟨" xyz".data, 1⟩ (by rfl)

/-- C9 (corrected): quoted-string reading interprets nothing — the
returned string is the verbatim input span up to the FIRST occurrence of
the quote rune, so backslashes (as in `\\`) survive unmodified, but a
backslash-quote does not appear literally in the value: the quote always
terminates the string, stranding the backslash as the last character. -/
theorem claim_C9_no_unescaping (quote : Char) (c c' : Cur) (str : String)
    (h : parseStringValue quote c = (.ok str, c')) :
    str.data = (c.input.drop (c.position + 1)).takeWhile (fun a => a ≠ quote) ∧
    c' = ⟨c.input, c.position + 1 + str.data.length + 1⟩ :=
  parseStringValue_verbatim quote c c' str h

/-- C9 counterexample: a field value `"a\"` keeps the backslash but the
escaped quote terminates the string — the claimed literal `a\"b` does not
appear; parsing continues after the quote. -/
theorem claim_C9_counterexample :
    ParseLogLine "2015-11-10T16:20:07.000Z I QUERY [c] query db.c x:\"a\\\" b:2 3ms" =
      .ok [("timestamp", Value.vStr "2015-11-10T16:20:07.000Z"),
           ("severity", Value.vStr "informational"),
           ("component", Value.vStr "QUERY"), ("context", Value.vStr "c"),
           ("operation", Value.vStr "query"), ("namespace", Value.vStr "db.c"),
           ("x", Value.vStr "a\\"), ("b", Value.vNum 2), ("duration", Value.vNum 3)] ∧
    ("a\\" : String) ≠ "a\\\"b" :=
  ⟨by rfl, by decide⟩

/-- C9 witness: the verbatim-span equations on a concrete string. -/
theorem claim_C9_witness :
    ("a\\b" : String).data =
      (("\"a\\b\"x".data).drop (0 + 1)).takeWhile (fun a => a ≠ '"') ∧
    (⟨"\"a\\b\"x".data, 5⟩ : Cur) =
      ⟨"\"a\\b\"x".data, 0 + 1 + ("a\\b" : String).data.length + 1⟩ :=
  claim_C9_no_unescaping '"' ⟨"\"a\\b\"x".data, 0⟩ ⟨"\"a\\b\"x".data, 5⟩ "a\\b" (by rfl)

/-- C10 (confirmed): when the message is a single token running to
end-of-input with no trailing whitespace, the operation probe's
`readUntil(Space)` fails at the sentinel — even when the token IS an
operation name — so the parse succeeds with exactly one extra insertion,
`message`, and no `operation`, `namespace` or `duration` key. -/
theorem claim_C10_single_token (fuel : Nat) (s : PState) (tok : List Char)
    (ht : s.cur.input.drop (eatWhitespace s.cur).position = tok)
    (hne : tok ≠ []) (hns : ∀ a ∈ tok, isSpaceChar a = false) :
    parseMessage fuel s =
      (.ok (), ⟨⟨s.cur.input, s.cur.input.length⟩,
        s.fields ++ [("message", Value.vStr tok.asString)]⟩) :=
  parseMessage_single_token fuel s tok ht hne hns

/-- C10 witness: the operation name `query` as the final token still goes
to `message`. -/
theorem claim_C10_witness :
    parseMessage 3 ⟨⟨"query".data, 0⟩, []⟩ =
      (.ok (), ⟨⟨"query".data, 5⟩, [("message", Value.vStr "query")]⟩) ∧
    isOperationName "query" = true := by
  constructor
  · exact claim_C10_single_token 3 ⟨⟨"query".data, 0⟩, []⟩ "query".data (by rfl)
      (by decide) (by decide)
  · rfl
end MLP
